import Mathlib

/-!
Verification development for the detection engine of this repository.

The Rust sources are shallowly embedded as executable Lean definitions:
  * `src/detections/rule/count.rs` — aggregation state, timeframe parsing,
    comparator selection and the windowed sweep `judge_timeframe`;
  * `src/detections/rule/condition_parser.rs` — the `all of p*` / `1 of p*`
    pre-expansion `convert_condition` and the condition compiler pipeline;
  * `src/yaml.rs` — the level filter of the rule loader.

Machine integers (`i32`, `i64`, `u128`) are modelled as `Int`/`Nat`; the
values reached by the claims are far below any overflow boundary, except in
`parseI64` where the `i64` range check of `str::parse` is modelled
explicitly.  Rust `HashMap`s are modelled as association lists in insertion
order (`hashbrown` iteration order is unspecified; every statement that
depends on ordering is phrased up to membership).  Strings manipulated
character-by-character are modelled as `List Char`.
-/

namespace Hayabusa

/-- Strings scanned character by character (the condition parser section). -/
abbrev Str := List Char

/-! ## `count.rs`: data model -/

/-- Timestamp model: UTC timestamps as Unix seconds (`chrono::DateTime<Utc>`
compared and subtracted through `.timestamp()` in the source). -/
abbrev Time := Int

/-- `Utc.ymd(9999, 12, 31).and_hms(23, 59, 59)` — the sentinel (番兵) pushed
behind the observations in `judge_timeframe`, as Unix seconds. -/
def stopTime : Time := 253402300799

/-- `Utc.ymd(1977, 1, 1).and_hms(0, 0, 0)` — the default event time used by
`count` when no event time can be parsed from the record, as Unix seconds. -/
def defaultTime : Time := 220924800

/-- `struct AggRecordTimeInfo` of `count.rs`. -/
structure AggRecordTimeInfo where
  field_record_value : String
  record_time : Time
deriving Repr, DecidableEq

/-- The comparator tokens of `AggregationConditionToken` used by `count.rs`.
The full enum lives in `rule/aggregation_parser.rs` (not part of the sources
here); `count.rs` only distinguishes the five comparison tokens, every other
variant falls into the wildcard arm, modelled by `other`. -/
inductive AggregationConditionToken where
  | EQ | GE | LE | GT | LT | other
deriving Repr, DecidableEq

/-- `AggregationParseInfo` (declared in `rule/mod.rs`, not among the sources;
fields reconstructed from their uses in `count.rs`: `_field_name`,
`_by_field_name`, `_cmp_op`, `_cmp_num`). -/
structure AggregationParseInfo where
  field_name : Option String
  by_field_name : Option String
  cmp_op : AggregationConditionToken
  cmp_num : Int
deriving Repr, DecidableEq

/-- `struct TimeFrameInfo` of `count.rs`; `timenum : Result<i64, ParseIntError>`
is modelled as `Option Int`. -/
structure TimeFrameInfo where
  timetype : String
  timenum : Option Int
deriving Repr, DecidableEq

/-- `struct AggResult` (declared in `rule/mod.rs`; fields and constructor
argument order reconstructed from the `AggResult::new(...)` calls and the
field accesses in `count.rs` and its tests). -/
structure AggResult where
  data : Int
  key : String
  field_values : List String
  start_timedate : Time
  condition_op_num : String
deriving Repr, DecidableEq

/-- The parts of `RuleNode.detection` read by `count.rs`:
`aggregation_condition` and `timeframe`. -/
structure DetectionNode where
  aggregation_condition : Option AggregationParseInfo
  timeframe : Option TimeFrameInfo
deriving Repr, DecidableEq

/-- The parts of `RuleNode` read and written by `count.rs`: the per-key
aggregation state `countdata` (a `HashMap<String, Vec<AggRecordTimeInfo>>`,
modelled as an association list in insertion order) and `detection`. -/
structure RuleNode where
  detection : DetectionNode
  countdata : List (String × List AggRecordTimeInfo)
deriving Repr, DecidableEq

/-! ## `count.rs`: timeframe parsing -/

/-- Decimal value of a digit string. -/
def digitsVal (ds : Str) : Nat :=
  ds.foldl (fun a c => a * 10 + (c.toNat - '0'.toNat)) 0

/-- The digit part of `str::parse::<i64>`: one or more ASCII digits valued
within the `i64` range (overflow is an `Err`). -/
def parseI64Core (sgn : Int) (ds : Str) : Option Int :=
  if ds = [] then none
  else if ds.all Char.isDigit then
    if -(2 ^ 63) ≤ sgn * (digitsVal ds : Int) ∧ sgn * (digitsVal ds : Int) < 2 ^ 63 then
      some (sgn * (digitsVal ds : Int))
    else none
  else none

/-- `str::parse::<i64>`: optional sign, then one or more ASCII digits, with
the `i64` range check. -/
def parseI64 (s : Str) : Option Int :=
  match s with
  | [] => none
  | c :: rest =>
    if c = '+' then parseI64Core 1 rest
    else if c = '-' then parseI64Core (-1) rest
    else parseI64Core 1 s

/-- `TimeFrameInfo::parse_tframe`.  The `Bool` component records whether the
`AlertMessage::alert` in the final `else` branch fired (no unit character
found); the source logs to stderr, modelled as a ghost flag. -/
def parse_tframe (value : Str) : TimeFrameInfo × Bool :=
  if value.contains 's' then
    (⟨"s", parseI64 (value.filter (· ≠ 's'))⟩, false)
  else if value.contains 'm' then
    (⟨"m", parseI64 (value.filter (· ≠ 'm'))⟩, false)
  else if value.contains 'h' then
    (⟨"h", parseI64 (value.filter (· ≠ 'h'))⟩, false)
  else if value.contains 'd' then
    (⟨"d", parseI64 (value.filter (· ≠ 'd'))⟩, false)
  else
    (⟨"", parseI64 value⟩, true)

/-- `get_sec_timeframe`.  The `Bool` component records whether the
`AlertMessage::alert` in the `Err` arm fired (number failed to parse). -/
def get_sec_timeframe (timeframe : Option TimeFrameInfo) : Option Int × Bool :=
  match timeframe with
  | none => (none, false)
  | some tfi =>
    match tfi.timenum with
    | some n =>
      if tfi.timetype = "d" then (some (n * 86400), false)
      else if tfi.timetype = "h" then (some (n * 3600), false)
      else if tfi.timetype = "m" then (some (n * 60), false)
      else (some n, false)
    | none => (none, true)

/-! ## `count.rs`: comparator and state update -/

/-- `select_aggcon`: does the count `cnt` satisfy the aggregation condition? -/
def select_aggcon (cnt : Int) (aggcondition : AggregationParseInfo) : Bool :=
  match aggcondition.cmp_op with
  | .EQ => if cnt = aggcondition.cmp_num then true else false
  | .GE => if cnt ≥ aggcondition.cmp_num then true else false
  | .GT => if cnt > aggcondition.cmp_num then true else false
  | .LE => if cnt ≤ aggcondition.cmp_num then true else false
  | .LT => if cnt < aggcondition.cmp_num then true else false
  | _ => false

/-- `get_str_agg_eq`: the comparator and threshold rendered as a string. -/
def get_str_agg_eq (rule : RuleNode) : String :=
  match rule.detection.aggregation_condition with
  | none => ""
  | some agg_condition =>
    match agg_condition.cmp_op with
    | .EQ => "== " ++ toString agg_condition.cmp_num
    | .GE => ">= " ++ toString agg_condition.cmp_num
    | .LE => "<= " ++ toString agg_condition.cmp_num
    | .GT => "> " ++ toString agg_condition.cmp_num
    | .LT => "< " ++ toString agg_condition.cmp_num
    | _ => ""

/-- Push one observation onto the slot `key` of a `countdata` map
(`entry(key).or_insert(Vec::new()).push(...)`; a fresh key is appended). -/
def countdataPush (cd : List (String × List AggRecordTimeInfo)) (key : String)
    (obs : AggRecordTimeInfo) : List (String × List AggRecordTimeInfo) :=
  match cd with
  | [] => [(key, [obs])]
  | (k, v) :: rest =>
    if k = key then (k, v ++ [obs]) :: rest else (k, v) :: countdataPush rest key obs

/-- Read a slot of a `countdata` map (`[]` when absent). -/
def countdataGet (cd : List (String × List AggRecordTimeInfo)) (key : String) :
    List AggRecordTimeInfo :=
  match cd with
  | [] => []
  | (k, v) :: rest => if k = key then v else countdataGet rest key

/-- `countup`: push one observation onto the slot `key` of the rule's
`countdata`. -/
def countup (rule : RuleNode) (key : String) (field_value : String)
    (record_time_value : Time) : RuleNode :=
  { rule with countdata :=
      countdataPush rule.countdata key ⟨field_value, record_time_value⟩ }

/-- `count`: record one detected record into the aggregation state.  The
source derives `key` via `create_count_key` and `field_value` via
`get_alias_value_in_record` from the raw record (through `utils` and
`Message::get_event_time`, which live outside these sources); those two
strings and the parsed event time are therefore taken as inputs here.  The
essential step of `count.rs` lines 17–36 is kept verbatim: the observation is
always pushed, with `Message::get_event_time(record).unwrap_or(default_time)`
as its timestamp. -/
def count (rule : RuleNode) (key : String) (field_value : String)
    (event_time : Option Time) : RuleNode :=
  countup rule key field_value (event_time.getD defaultTime)

/-! ## `count.rs`: the `loaded_field_value` map

`HashMap<String, u128>` modelled as an association list in insertion order. -/

/-- `*map.entry(k).or_insert(0) += 1`. -/
def lfvAdd (m : List (String × Nat)) (k : String) : List (String × Nat) :=
  match m with
  | [] => [(k, 1)]
  | (k', v) :: rest => if k' = k then (k', v + 1) :: rest else (k', v) :: lfvAdd rest k

/-- The slide-branch bookkeeping: `let counter = map.entry(k).or_insert(1);
*counter -= 1; if *counter == 0 { map.remove(&k) }`.  For an absent key this
inserts 1, decrements to 0 and removes it again — a no-op on the map. -/
def lfvDec (m : List (String × Nat)) (k : String) : List (String × Nat) :=
  match m with
  | [] => []
  | (k', v) :: rest =>
    if k' = k then
      if v - 1 = 0 then rest else (k', v - 1) :: rest
    else (k', v) :: lfvDec rest k

/-- `map.get(k)`. -/
def lfvGet (m : List (String × Nat)) (k : String) : Option Nat :=
  match m with
  | [] => none
  | (k', v) :: rest => if k' = k then some v else lfvGet rest k

/-- `map.keys()` (insertion order stands in for the unspecified hash order). -/
def lfvKeys (m : List (String × Nat)) : List String := m.map Prod.fst

/-- `map.values().sum()`. -/
def lfvSum (m : List (String × Nat)) : Nat := (m.map Prod.snd).sum

/-! ## `count.rs`: sorting the slot

`time_data.sort_by(|a, b| a.record_time.cmp(&b.record_time))` — a stable
sort by timestamp; any stable sort computes the same list, modelled by a
stable insertion sort. -/

/-- Stable insertion of one observation into a time-sorted list. -/
def insertByTime (x : AggRecordTimeInfo) : List AggRecordTimeInfo → List AggRecordTimeInfo
  | [] => [x]
  | y :: ys => if x.record_time ≤ y.record_time then x :: y :: ys
               else y :: insertByTime x ys

/-- Stable sort by `record_time` (the semantics of `Vec::sort_by` with the
timestamp comparator). -/
def sortByTime : List AggRecordTimeInfo → List AggRecordTimeInfo
  | [] => []
  | x :: xs => insertByTime x (sortByTime xs)

/-! ## `count.rs`: the windowed sweep -/

/-- Read `time_data[i]` (`i : Int` models the `i32` cursors; the source
indexes the `Vec` directly — out-of-range access panics there and yields the
sentinel here, which no reachable state exercises). -/
def tdGet (td : List AggRecordTimeInfo) (i : Int) : AggRecordTimeInfo :=
  td.getD i.toNat ⟨"", stopTime⟩

/-- The `get_next_checkpoint` closure of `judge_timeframe`. -/
def getNextCheckpoint (lenI N cal : Int) : Int :=
  if cal + N - 1 > lenI - 1 then lenI - 1 else cal + N - 1

/-- State threaded through the `while` loop of `judge_timeframe`:
`start_point`, `check_point` (both `i32`), `loaded_field_value` and the
accumulated `ret`. -/
structure SweepState where
  start_point : Int
  check_point : Int
  loaded : List (String × Nat)
  ret : List AggResult
deriving Repr, DecidableEq

/-- One-shot data of the sweep that never changes inside the loop. -/
structure SweepEnv where
  td : List AggRecordTimeInfo
  lenI : Int
  aggcondition : AggregationParseInfo
  exist_field : Bool
  judge_sec_frame : Option Int
  key : String
  op_str : String
deriving Repr, DecidableEq

/-- The body of the `while` loop of `judge_timeframe`, iterated on fuel
(the loop terminates in the source because a cursor advances each pass; a
fuel bound larger than any possible trace is supplied by the caller). -/
def sweepLoop (e : SweepEnv) : Nat → SweepState → SweepState
  | 0, s => s
  | fuel + 1, s =>
    if (tdGet e.td s.start_point).record_time ≠ stopTime ∧ s.check_point < e.lenI then
      let check_point_date := tdGet e.td s.check_point
      let diff := check_point_date.record_time - (tdGet e.td s.start_point).record_time
      if e.judge_sec_frame.isSome ∧ diff > e.judge_sec_frame.getD 0 then
        -- the window [start, check) is wider than the timeframe
        let count_set_cnt := s.check_point - s.start_point
        let loaded' :=
          if e.exist_field then
            (List.range' (s.start_point.toNat + 1)
                (s.check_point.toNat - (s.start_point.toNat + 1))).foldl
              (fun m j => lfvAdd m (tdGet e.td (j : Int)).field_record_value) s.loaded
          else s.loaded
        let result_set_cnt : Int :=
          if e.exist_field then (loaded'.length : Int) else count_set_cnt
        if ¬ select_aggcon result_set_cnt e.aggcondition then
          -- threshold not met: slide the left cursor by one
          let loaded'' :=
            if e.exist_field ∧ (tdGet e.td s.start_point).record_time ≠ stopTime then
              lfvDec loaded' (tdGet e.td s.start_point).field_record_value
            else loaded'
          sweepLoop e fuel
            { start_point := s.start_point + 1
              check_point := getNextCheckpoint e.lenI e.aggcondition.cmp_num (s.start_point + 1)
              loaded := loaded''
              ret := s.ret }
        else
          -- threshold met: emit and jump the left cursor to the right cursor
          let field_values := (lfvKeys loaded').filter (· ≠ "")
          let r : AggResult :=
            ⟨result_set_cnt, e.key, field_values,
              (tdGet e.td s.start_point).record_time, e.op_str⟩
          sweepLoop e fuel
            { start_point := s.check_point
              check_point := getNextCheckpoint e.lenI e.aggcondition.cmp_num s.check_point
              loaded := lfvAdd [] (tdGet e.td 0).field_record_value
              ret := s.ret ++ [r] }
      else
        -- window still fits: take the right cursor's value and advance it
        let loaded' :=
          if check_point_date.record_time ≠ stopTime ∧ s.check_point ≠ 0 then
            lfvAdd s.loaded check_point_date.field_record_value
          else s.loaded
        sweepLoop e fuel
          { s with check_point := s.check_point + 1, loaded := loaded' }
    else s

/-- `judge_timeframe`: sentinel padding, stable sort, the two-cursor sweep,
and the whole-run comparison when no timeframe is set. -/
def judge_timeframe (rule : RuleNode) (time_datas : List AggRecordTimeInfo)
    (key : String) : List AggResult :=
  let aggcondition := (rule.detection.aggregation_condition).getD
    ⟨none, none, .other, 0⟩
  let exist_field := aggcondition.field_name.isSome
  let judge_sec_frame := (get_sec_timeframe rule.detection.timeframe).1
  let stop_time_datas : List AggRecordTimeInfo :=
    List.replicate aggcondition.cmp_num.toNat ⟨"", stopTime⟩
  let td := sortByTime (time_datas ++ stop_time_datas)
  let lenI : Int := td.length
  let e : SweepEnv :=
    ⟨td, lenI, aggcondition, exist_field, judge_sec_frame, key, get_str_agg_eq rule⟩
  let s0 : SweepState :=
    { start_point := 0
      check_point := getNextCheckpoint lenI aggcondition.cmp_num 0
      loaded := lfvAdd [] (tdGet td 0).field_record_value
      ret := [] }
  let s := sweepLoop e ((td.length + 2) * (td.length + 2)) s0
  if judge_sec_frame.isNone then
    if exist_field ∧ select_aggcon ((lfvKeys s.loaded).length : Int) aggcondition then
      let field_values := (lfvKeys s.loaded).filter (· ≠ "")
      s.ret ++ [⟨(lfvSum s.loaded : Int), key, field_values,
        (tdGet td s.start_point).record_time, get_str_agg_eq rule⟩]
    else
      if select_aggcon (((lfvGet s.loaded "").getD 0 : Nat) : Int) aggcondition then
        s.ret ++ [⟨(((lfvGet s.loaded "").getD 0 : Nat) : Int), key, [],
          (tdGet td s.start_point).record_time, get_str_agg_eq rule⟩]
      else s.ret
  else s.ret

/-- `aggregation_condition_select`: run `judge_timeframe` over every slot of
`countdata` and concatenate the results. -/
def aggregation_condition_select (rule : RuleNode) : List AggResult :=
  rule.countdata.foldl (fun ret kv => ret ++ judge_timeframe rule kv.2 kv.1) []

/-- The flush entry point as a state transformer.  The source signature is
`fn aggregation_condition_select(rule: &RuleNode) -> Vec<AggResult>` — a
shared borrow, so the rule state comes back unchanged; the returned pair
makes that explicit. -/
def aggregation_condition_select_run (rule : RuleNode) :
    List AggResult × RuleNode :=
  (aggregation_condition_select rule, rule)

/-! ## Window-instrumented sweep

`judge_timeframe_windows` repeats `judge_timeframe` verbatim, additionally
recording with every emitted `AggResult` the cursor pair `(start_point,
check_point)` at the moment of emission — the index range `[start, check)`
of the observations the emission counted.  It is a verification instrument:
its projection to the first components is proved equal to `judge_timeframe`
for all inputs. -/

/-- Sweep-loop state carrying the window extents of every emission. -/
structure SweepStateW where
  start_point : Int
  check_point : Int
  loaded : List (String × Nat)
  retW : List (AggResult × Int × Int)
deriving Repr, DecidableEq

/-- Forget the recorded windows. -/
def eraseSW (s : SweepStateW) : SweepState :=
  ⟨s.start_point, s.check_point, s.loaded, s.retW.map Prod.fst⟩

/-- The loop of `judge_timeframe`, with window extents recorded at each
emission; branch for branch identical to `sweepLoop`. -/
def sweepLoopW (e : SweepEnv) : Nat → SweepStateW → SweepStateW
  | 0, s => s
  | fuel + 1, s =>
    if (tdGet e.td s.start_point).record_time ≠ stopTime ∧ s.check_point < e.lenI then
      let check_point_date := tdGet e.td s.check_point
      let diff := check_point_date.record_time - (tdGet e.td s.start_point).record_time
      if e.judge_sec_frame.isSome ∧ diff > e.judge_sec_frame.getD 0 then
        let count_set_cnt := s.check_point - s.start_point
        let loaded' :=
          if e.exist_field then
            (List.range' (s.start_point.toNat + 1)
                (s.check_point.toNat - (s.start_point.toNat + 1))).foldl
              (fun m j => lfvAdd m (tdGet e.td (j : Int)).field_record_value) s.loaded
          else s.loaded
        let result_set_cnt : Int :=
          if e.exist_field then (loaded'.length : Int) else count_set_cnt
        if ¬ select_aggcon result_set_cnt e.aggcondition then
          let loaded'' :=
            if e.exist_field ∧ (tdGet e.td s.start_point).record_time ≠ stopTime then
              lfvDec loaded' (tdGet e.td s.start_point).field_record_value
            else loaded'
          sweepLoopW e fuel
            { start_point := s.start_point + 1
              check_point := getNextCheckpoint e.lenI e.aggcondition.cmp_num (s.start_point + 1)
              loaded := loaded''
              retW := s.retW }
        else
          let field_values := (lfvKeys loaded').filter (· ≠ "")
          let r : AggResult :=
            ⟨result_set_cnt, e.key, field_values,
              (tdGet e.td s.start_point).record_time, e.op_str⟩
          sweepLoopW e fuel
            { start_point := s.check_point
              check_point := getNextCheckpoint e.lenI e.aggcondition.cmp_num s.check_point
              loaded := lfvAdd [] (tdGet e.td 0).field_record_value
              retW := s.retW ++ [(r, s.start_point, s.check_point)] }
      else
        let loaded' :=
          if check_point_date.record_time ≠ stopTime ∧ s.check_point ≠ 0 then
            lfvAdd s.loaded check_point_date.field_record_value
          else s.loaded
        sweepLoopW e fuel
          { s with check_point := s.check_point + 1, loaded := loaded' }
    else s

/-- `judge_timeframe` with recorded windows; the whole-run emission of the
timeframe-less case is paired with the extent `[start_point, lenI)`. -/
def judge_timeframe_windows (rule : RuleNode) (time_datas : List AggRecordTimeInfo)
    (key : String) : List (AggResult × Int × Int) :=
  let aggcondition := (rule.detection.aggregation_condition).getD
    ⟨none, none, .other, 0⟩
  let exist_field := aggcondition.field_name.isSome
  let judge_sec_frame := (get_sec_timeframe rule.detection.timeframe).1
  let stop_time_datas : List AggRecordTimeInfo :=
    List.replicate aggcondition.cmp_num.toNat ⟨"", stopTime⟩
  let td := sortByTime (time_datas ++ stop_time_datas)
  let lenI : Int := td.length
  let e : SweepEnv :=
    ⟨td, lenI, aggcondition, exist_field, judge_sec_frame, key, get_str_agg_eq rule⟩
  let s0 : SweepStateW :=
    { start_point := 0
      check_point := getNextCheckpoint lenI aggcondition.cmp_num 0
      loaded := lfvAdd [] (tdGet td 0).field_record_value
      retW := [] }
  let s := sweepLoopW e ((td.length + 2) * (td.length + 2)) s0
  if judge_sec_frame.isNone then
    if exist_field ∧ select_aggcon ((lfvKeys s.loaded).length : Int) aggcondition then
      let field_values := (lfvKeys s.loaded).filter (· ≠ "")
      s.retW ++ [(⟨(lfvSum s.loaded : Int), key, field_values,
        (tdGet td s.start_point).record_time, get_str_agg_eq rule⟩, s.start_point, lenI)]
    else
      if select_aggcon (((lfvGet s.loaded "").getD 0 : Nat) : Int) aggcondition then
        s.retW ++ [(⟨(((lfvGet s.loaded "").getD 0 : Nat) : Int), key, [],
          (tdGet td s.start_point).record_time, get_str_agg_eq rule⟩, s.start_point, lenI)]
      else s.retW
  else s.retW

/-- Helper for the timeframe-less analysis: how many loop passes starting at
`check` add to `loaded` (right-cursor positions below `lenI` whose entry is
not the sentinel and whose index is non-zero), counted recursively. -/
def noTfAddGo (e : SweepEnv) : Nat → Int → Nat
  | 0, _ => 0
  | n + 1, check =>
    (if (tdGet e.td check).record_time ≠ stopTime ∧ check ≠ 0 then 1 else 0)
      + noTfAddGo e n (check + 1)

/-- The additions the timeframe-less loop performs from cursor `check` on. -/
def noTfAdd (e : SweepEnv) (check : Int) : Nat :=
  noTfAddGo e (e.lenI - check).toNat check

/-! ## `condition_parser.rs`: pre-expansion (`convert_condition`)

Strings are `List Char`; Rust's `str::replace` with a nonempty pattern is
`replaceAll` (left-to-right, non-overlapping), `str::replace('*', "")` is a
`filter`, and the regex `OF_SELECTION = (all|1) of ([^*]+)\*` is realised by
`ofSelectionMatchLen`/`findMatches` (leftmost match, greedy `[^*]+`,
non-overlapping continuation — the semantics of `Regex::find_iter`). -/

/-- Length of the `OF_SELECTION` match starting at the head of `s`, if any:
`all of ` or `1 of `, one or more non-`*` characters, then `*`. -/
def ofSelectionMatchLen (s : Str) : Option Nat :=
  let tail : Nat → Option Nat := fun k =>
    let cap := (s.drop k).takeWhile (· ≠ '*')
    if cap = [] then none
    else
      match (s.drop (k + cap.length)).head? with
      | some '*' => some (k + cap.length + 1)
      | _ => none
  if ("all of ".toList).isPrefixOf s then tail 7
  else if ("1 of ".toList).isPrefixOf s then tail 5
  else none

/-- `Regex::find_iter` for `OF_SELECTION`: scan left to right, emit each
match, continue after its end (fuelled by the string length; every match is
nonempty, so the fuel is sufficient). -/
def findMatchesFuel : Nat → Str → List Str
  | 0, _ => []
  | _, [] => []
  | fuel + 1, c :: rest =>
    match ofSelectionMatchLen (c :: rest) with
    | some n => (c :: rest).take n :: findMatchesFuel fuel ((c :: rest).drop n)
    | none => findMatchesFuel fuel rest

/-- All `OF_SELECTION` matches of `s`, leftmost first, non-overlapping. -/
def findMatches (s : Str) : List Str := findMatchesFuel s.length s

/-- Rust `str::replace` for a nonempty pattern: replace every non-overlapping
occurrence, left to right.  (For the empty pattern Rust splices `rep` between
all characters; no call here uses an empty pattern.) -/
def replaceAllFuel (pat rep : Str) : Nat → Str → Str
  | 0, s => s
  | _, [] => []
  | fuel + 1, c :: rest =>
    if pat ≠ [] ∧ pat.isPrefixOf (c :: rest) then
      rep ++ replaceAllFuel pat rep fuel ((c :: rest).drop pat.length)
    else c :: replaceAllFuel pat rep fuel rest

/-- `s.replace(pat, rep)`. -/
def replaceAll (pat rep s : Str) : Str := replaceAllFuel pat rep s.length s

/-- `convert_condition`: replace `all of PFX*` by the `" and "`-joined and
`1 of PFX*` by the `" or "`-joined parenthesized group of the node keys that
start with the extracted prefix.  Matches are collected over the original
string, replacement is applied globally to the evolving string (a fold, as
in the source's `for matched in OF_SELECTION.find_iter(condition_str)`). -/
def convert_condition (condition_str : Str) (node_keys : List Str) : Str :=
  (findMatches condition_str).foldl
    (fun converted_str match_str =>
      let sep : Str :=
        if ("all".toList).isPrefixOf match_str then " and ".toList else " or ".toList
      let target_node_key_pfx : Str :=
        replaceAll ("1 of ".toList) []
          (replaceAll ("all of ".toList) [] (match_str.filter (· ≠ '*')))
      let replaced_condition : Str :=
        List.intercalate sep
          (node_keys.filter (fun x => target_node_key_pfx.isPrefixOf x))
      replaceAll match_str ('(' :: (replaced_condition ++ [')'])) converted_str)
    condition_str

/-! ## `condition_parser.rs`: tokenizer and parser -/

/-- `ConditionToken` (the `Space` variant is consumed inside `tokenize` and
never stored, so it is omitted). -/
inductive ConditionToken where
  | LeftParenthesis
  | RightParenthesis
  | NotTok
  | AndTok
  | OrTok
  | SelectionReference (name : Str)
  | ParenthesisContainer (sub : List ConditionToken)
  | AndContainer (sub : List ConditionToken)
  | OrContainer (sub : List ConditionToken)
  | NotContainer (sub : List ConditionToken)
  | OperandContainer (sub : List ConditionToken)

instance : Inhabited ConditionToken := ⟨ConditionToken.NotTok⟩

/-- Constructor discriminators (the source compares tokens with `matches!`). -/
def ConditionToken.isLeftParen : ConditionToken → Bool
  | ConditionToken.LeftParenthesis => true
  | _ => false

/-- Discriminator for `RightParenthesis`. -/
def ConditionToken.isRightParen : ConditionToken → Bool
  | ConditionToken.RightParenthesis => true
  | _ => false

/-- Discriminator for the `Not` token. -/
def ConditionToken.isNotTok : ConditionToken → Bool
  | ConditionToken.NotTok => true
  | _ => false

/-- Discriminator for the `And` token. -/
def ConditionToken.isAndTok : ConditionToken → Bool
  | ConditionToken.AndTok => true
  | _ => false

/-- Discriminator for the `Or` token. -/
def ConditionToken.isOrTok : ConditionToken → Bool
  | ConditionToken.OrTok => true
  | _ => false

/-- `\w` of the tokenizer's `^\w+` regex (ASCII view). -/
def isWordChar (c : Char) : Bool := c.isAlphanum || c = '_'

/-- `to_enum`, merged with the tokenizer's longest-match loop over
`^\(`, `^\)`, `^ `, `^\w+`; spaces are skipped, any other character is the
error `An unusable character was found.` (fuelled by length; each step
consumes at least one character). -/
def tokenizeFuel : Nat → Str → Except String (List ConditionToken)
  | 0, _ => .ok []
  | _, [] => .ok []
  | fuel + 1, c :: rest =>
    if c = '(' then (tokenizeFuel fuel rest).map (ConditionToken.LeftParenthesis :: ·)
    else if c = ')' then (tokenizeFuel fuel rest).map (ConditionToken.RightParenthesis :: ·)
    else if c = ' ' then tokenizeFuel fuel rest
    else if isWordChar c then
      let w := (c :: rest).takeWhile isWordChar
      let tok :=
        if w = "not".toList then ConditionToken.NotTok
        else if w = "and".toList then ConditionToken.AndTok
        else if w = "or".toList then ConditionToken.OrTok
        else ConditionToken.SelectionReference w
      (tokenizeFuel fuel ((c :: rest).drop w.length)).map (tok :: ·)
    else .error "An unusable character was found."

/-- `tokenize`. -/
def tokenize (condition_str : Str) : Except String (List ConditionToken) :=
  tokenizeFuel condition_str.length condition_str

/-- The inner scan of `parse_parenthesis`: from just after a `(`, collect
tokens until the matching `)` (counting nesting); `none` when unbalanced. -/
def collectParen : List ConditionToken → Nat → Nat → List ConditionToken →
    Option (List ConditionToken × List ConditionToken)
  | [], _, _, _ => none
  | t :: ts, left_cnt, right_cnt, acc =>
    let left_cnt := if t.isLeftParen then left_cnt + 1 else left_cnt
    let right_cnt := if t.isRightParen then right_cnt + 1 else right_cnt
    if left_cnt = right_cnt then some (acc.reverse, ts)
    else collectParen ts left_cnt right_cnt (t :: acc)

/-- `parse_parenthesis`, first phase: wrap every top-level parenthesized
region into a `ParenthesisContainer` (fuelled by length). -/
def parseParenFuel : Nat → List ConditionToken → Except String (List ConditionToken)
  | 0, _ => .ok []
  | _, [] => .ok []
  | fuel + 1, t :: ts =>
    if t.isLeftParen then
      match collectParen ts 1 0 [] with
      | none => .error "')' was expected but not found."
      | some (sub, rest) =>
        (parseParenFuel fuel rest).map (ConditionToken.ParenthesisContainer sub :: ·)
    else (parseParenFuel fuel ts).map (t :: ·)

/-- `parse_parenthesis`: the scan above plus the trailing check that no
unmatched `)` remains. -/
def parse_parenthesis (tokens : List ConditionToken) :
    Except String (List ConditionToken) :=
  match parseParenFuel tokens.length tokens with
  | .error msg => .error msg
  | .ok ret =>
    if ret.any ConditionToken.isRightParen then
      .error "'(' was expected but not found."
    else .ok ret

/-- `is_logical`. -/
def is_logical (t : ConditionToken) : Bool :=
  t.isAndTok || t.isOrTok

/-- `to_operand_container`: group the maximal runs between logical operators
into `OperandContainer`s. -/
def to_operand_container (tokens : List ConditionToken) : List ConditionToken :=
  let step := tokens.foldl
    (fun (acc : List ConditionToken × List ConditionToken) token =>
      if is_logical token then
        if acc.2.isEmpty then (acc.1 ++ [token], [])
        else (acc.1 ++ [ConditionToken.OperandContainer acc.2, token], [])
      else (acc.1, acc.2 ++ [token]))
    ([], [])
  if step.2.isEmpty then step.1
  else step.1 ++ [ConditionToken.OperandContainer step.2]

/-- The alternation check of `parse_and_or_operator`: even positions must be
operands, odd positions logical operators; returns the two interleaved
lists. -/
def splitAlternate : List ConditionToken → Nat →
    Except String (List ConditionToken × List ConditionToken)
  | [], _ => .ok ([], [])
  | t :: ts, i =>
    if decide (i % 2 = 1) ≠ is_logical t then
      .error "The use of a logical operator(and, or) was wrong."
    else
      match splitAlternate ts (i + 1) with
      | .error msg => .error msg
      | .ok (ops, ators) =>
        if i % 2 = 0 then .ok (t :: ops, ators) else .ok (ops, t :: ators)

/-- The and-grouping pass of `parse_and_or_operator`: walk the operators,
pushing the next operand on `Or` and fusing it with the previous operand
into an `AndContainer` on `And`. -/
def groupAndsGo : List ConditionToken → List ConditionToken → List ConditionToken →
    List ConditionToken
  | operands, _, [] => operands
  | operands, next_ops, ator :: ators =>
    match next_ops with
    | [] => operands
    | nd :: rest =>
      match ator with
      | ConditionToken.OrTok => groupAndsGo (operands ++ [nd]) rest ators
      | _ =>
        groupAndsGo
          (operands.dropLast ++ [ConditionToken.AndContainer [operands.getLast!, nd]])
          rest ators

/-- `parse_and_or_operator`. -/
def parse_and_or_operator (tokens : List ConditionToken) :
    Except String ConditionToken :=
  if tokens.isEmpty then .error "Unknown error."
  else
    let tokens := to_operand_container tokens
    if is_logical tokens.head! || is_logical tokens.getLast! then
      .error "An illegal logical operator(and, or) was found."
    else
      match splitAlternate tokens 0 with
      | .error msg => .error msg
      | .ok (operand_list, operator_list) =>
        match operand_list with
        | [] => .error "Unknown error."
        | first :: rest_ops =>
          .ok (ConditionToken.OrContainer (groupAndsGo [first] rest_ops operator_list))

mutual

/-- `parse_operand_container`: resolve `not` inside each `OperandContainer`;
other containers (parentheses excepted) are walked recursively. -/
def parse_operand_container : ConditionToken → Except String ConditionToken
  | ConditionToken.OperandContainer sub =>
    if sub.length ≥ 3 then
      .error "Unknown error. Maybe it is because there are multiple names of selection nodes."
    else if sub.length = 0 then .error "Unknown error."
    else
      match sub with
      | [only] =>
        if only.isNotTok then .error "An illegal not was found."
        else .ok only
      | [first, second] =>
        if first.isNotTok then
          if second.isNotTok then .error "Not is continuous."
          else .ok (ConditionToken.NotContainer [second])
        else
          .error "Unknown error. Maybe it is because there are multiple names of selection nodes."
      | _ => .error "Unknown error."
  | ConditionToken.AndContainer sub =>
    (parseOperandList sub).map ConditionToken.AndContainer
  | ConditionToken.OrContainer sub =>
    (parseOperandList sub).map ConditionToken.OrContainer
  | ConditionToken.NotContainer sub =>
    (parseOperandList sub).map ConditionToken.NotContainer
  | t => .ok t

/-- `parse_operand_container` mapped over the children of a container. -/
def parseOperandList : List ConditionToken → Except String (List ConditionToken)
  | [] => .ok []
  | t :: ts =>
    match parse_operand_container t with
    | .error msg => .error msg
    | .ok t' =>
      match parseOperandList ts with
      | .error msg => .error msg
      | .ok ts' => .ok (t' :: ts')

end

mutual

/-- `parse`: parentheses, and/or, operand containers, then recursion into the
remaining parenthesized regions (fuelled; the backstop arm is unreachable
for the fuel supplied by `compile_condition_body`). -/
def parseFuel : Nat → List ConditionToken → Except String ConditionToken
  | 0, _ => .error "Unknown error."
  | fuel + 1, tokens =>
    match parse_parenthesis tokens with
    | .error msg => .error msg
    | .ok tokens =>
      match parse_and_or_operator tokens with
      | .error msg => .error msg
      | .ok token =>
        match parse_operand_container token with
        | .error msg => .error msg
        | .ok token => parseRestFuel fuel token

/-- `parse_rest_parenthesis`. -/
def parseRestFuel : Nat → ConditionToken → Except String ConditionToken
  | 0, _ => .error "Unknown error."
  | fuel + 1, token =>
    match token with
    | ConditionToken.ParenthesisContainer sub => parseFuel fuel sub
    | ConditionToken.AndContainer sub =>
      (parseRestList fuel sub).map ConditionToken.AndContainer
    | ConditionToken.OrContainer sub =>
      (parseRestList fuel sub).map ConditionToken.OrContainer
    | ConditionToken.NotContainer sub =>
      (parseRestList fuel sub).map ConditionToken.NotContainer
    | ConditionToken.OperandContainer sub =>
      (parseRestList fuel sub).map ConditionToken.OperandContainer
    | t => .ok t

/-- `parse_rest_parenthesis` mapped over the children of a container. -/
def parseRestList : Nat → List ConditionToken → Except String (List ConditionToken)
  | 0, _ => .error "Unknown error."
  | _ + 1, [] => .ok []
  | fuel + 1, t :: ts =>
    match parseRestFuel fuel t with
    | .error msg => .error msg
    | .ok t' =>
      match parseRestList fuel ts with
      | .error msg => .error msg
      | .ok ts' => .ok (t' :: ts')

end

/-- The compiled selection tree (`RefSelectionNode` keeps only the referenced
name: the node behind it is irrelevant to the compiler's success). -/
inductive SelectionNode where
  | RefNode (name : Str)
  | AndNode (children : List SelectionNode)
  | OrNode (children : List SelectionNode)
  | NotNode (children : List SelectionNode)

/-- Success discriminator for `Result` values. -/
def exceptIsOk : Except String α → Bool
  | .ok _ => true
  | .error _ => false

mutual

/-- `to_selectnode`: convert the parsed token tree into selection nodes,
rejecting references that are not in the selection map (`name_2_node` is
represented by its key list). -/
def to_selectnode (token : ConditionToken) (names : List Str) :
    Except String SelectionNode :=
  match token with
  | ConditionToken.SelectionReference selection_name =>
    if names.any (· = selection_name) then .ok (SelectionNode.RefNode selection_name)
    else .error (String.mk selection_name ++ " is not defined.")
  | ConditionToken.AndContainer sub =>
    (toSelectnodeList sub names).map SelectionNode.AndNode
  | ConditionToken.OrContainer sub =>
    (toSelectnodeList sub names).map SelectionNode.OrNode
  | ConditionToken.NotContainer sub =>
    if sub.length > 1 then .error "Unknown error"
    else
      match sub with
      | [only] => (to_selectnode only names).map (fun n => SelectionNode.NotNode [n])
      | _ => .error "Unknown error"
  | _ => .error "Unknown error"

/-- `to_selectnode` mapped over the children of a container. -/
def toSelectnodeList (tokens : List ConditionToken) (names : List Str) :
    Except String (List SelectionNode) :=
  match tokens with
  | [] => .ok []
  | t :: ts =>
    match to_selectnode t names with
    | .error msg => .error msg
    | .ok n =>
      match toSelectnodeList ts names with
      | .error msg => .error msg
      | .ok ns => .ok (n :: ns)

end

/-- `compile_condition_body`: tokenize, parse, convert (the parse fuel is the
token count plus a margin; ample for every reachable tree). -/
def compile_condition_body (condition_str : Str) (names : List Str) :
    Except String SelectionNode :=
  match tokenize condition_str with
  | .error msg => .error msg
  | .ok tokens =>
    match parseFuel ((tokens.length + 2) * (tokens.length + 2)) tokens with
    | .error msg => .error msg
    | .ok parsed => to_selectnode parsed names

/-- `compile_condition`: pre-expansion, the `RE_PIPE` strip (`\|.*` — from
the first pipe to the end of the line; conditions are single-line, so this
is everything from the first `|`), then the body; errors are wrapped in the
`A condition parse error has occurred.` prefix. -/
def compile_condition (condition_str : Str) (node_keys : List Str) :
    Except String SelectionNode :=
  let condition_str := convert_condition condition_str node_keys
  let replaced_condition :=
    if condition_str.contains '|' then condition_str.takeWhile (· ≠ '|')
    else condition_str
  match compile_condition_body replaced_condition node_keys with
  | .error msg => .error ("A condition parse error has occurred. " ++ msg)
  | .ok node => .ok node

/-! ## `yaml.rs`: the level filter of the rule loader -/

/-- The `level_map` built in `ParseYaml::new`. -/
def level_map : List (String × Nat) :=
  [("INFORMATIONAL", 1), ("LOW", 2), ("MEDIUM", 3), ("HIGH", 4), ("CRITICAL", 5)]

/-- Association-list lookup (`HashMap::get`). -/
def lmGet (m : List (String × Nat)) (k : String) : Option Nat :=
  match m with
  | [] => none
  | (k', v) :: rest => if k' = k then some v else lmGet rest k

/-- Rust `str::to_uppercase` restricted to its ASCII behaviour (rule levels
are ASCII). -/
def toUpperStr (s : String) : String := String.mk (s.data.map Char.toUpper)

/-- The level filter of `ParseYaml::read_dir` (yaml.rs lines 311–322): keep
the rule unless its level rank is below the requested minimum rank.
`doc_level` is `yaml_doc["level"].as_str()` (`none` when the key is absent),
defaulted to `"informational"`, uppercased and looked up with fallback rank 1;
the argument level is looked up with fallback rank 1. -/
def level_filter_keeps (doc_level : Option String) (arg_level : String) : Bool :=
  let doc := toUpperStr (doc_level.getD "informational")
  let doc_level_num := (lmGet level_map doc).getD 1
  let args_level_num := (lmGet level_map arg_level).getD 1
  ¬ doc_level_num < args_level_num

/-! ## Concrete instances used by the claims -/

/-- The rule of S6 / claim C1: `count() >= 3` with `timeframe: 2h`, no count
field, no by-key. -/
def c1Rule : RuleNode :=
  { detection := { aggregation_condition := some ⟨none, none, .GE, 3⟩,
                   timeframe := some ⟨"h", some 2⟩ },
    countdata := [] }

/-- The ten observations of S6 / claim C1, as seconds past midnight of their
common day: 00:30, 01:30, 02:30, 03:30, 04:30, 05:30, 19:00, 20:00, 21:00,
22:00 (a `count()` rule records the empty string as field value). -/
def c1Obs : List AggRecordTimeInfo :=
  [⟨"", 1800⟩, ⟨"", 5400⟩, ⟨"", 9000⟩, ⟨"", 12600⟩, ⟨"", 16200⟩, ⟨"", 19800⟩,
   ⟨"", 68400⟩, ⟨"", 72000⟩, ⟨"", 75600⟩, ⟨"", 79200⟩]

/-- Claim C2's counterexample rule: `count(F) <= 3` with a 7200-second (2h)
timeframe. -/
def c2Rule : RuleNode :=
  { detection := { aggregation_condition := some ⟨some "F", none, .LE, 3⟩,
                   timeframe := some ⟨"s", some 7200⟩ },
    countdata := [] }

/-- Claim C2's counterexample slot: field values `a`, `b`, `c` observed at
0, 10000 and 20000 seconds. -/
def c2Obs : List AggRecordTimeInfo := [⟨"a", 0⟩, ⟨"b", 10000⟩, ⟨"c", 20000⟩]

/-- Claim C3's counterexample rule: timeframe-less `count() >= 1`. -/
def c3Rule : RuleNode :=
  { detection := { aggregation_condition := some ⟨none, none, .GE, 1⟩,
                   timeframe := none },
    countdata := [] }

set_option maxRecDepth 40000

/-! # Helper lemmas: the stable sort and indexed access -/

theorem insertByTime_length (x : AggRecordTimeInfo) (l : List AggRecordTimeInfo) :
    (insertByTime x l).length = l.length + 1 := by
  induction l with
  | nil => rfl
  | cons y ys ih =>
    simp only [insertByTime]
    split
    · simp
    · simp [ih]

theorem sortByTime_length (l : List AggRecordTimeInfo) :
    (sortByTime l).length = l.length := by
  induction l with
  | nil => rfl
  | cons x xs ih => simp [sortByTime, insertByTime_length, ih]

theorem mem_insertByTime (a x : AggRecordTimeInfo) (l : List AggRecordTimeInfo) :
    a ∈ insertByTime x l ↔ a = x ∨ a ∈ l := by
  induction l with
  | nil => simp [insertByTime]
  | cons y ys ih =>
    simp only [insertByTime]
    split
    · simp [List.mem_cons]
    · simp only [List.mem_cons, ih]
      tauto

theorem mem_sortByTime (a : AggRecordTimeInfo) (l : List AggRecordTimeInfo) :
    a ∈ sortByTime l ↔ a ∈ l := by
  induction l with
  | nil => simp [sortByTime]
  | cons x xs ih => simp [sortByTime, mem_insertByTime, ih]

theorem insertByTime_pairwise (x : AggRecordTimeInfo) (l : List AggRecordTimeInfo)
    (h : List.Pairwise (fun a b => a.record_time ≤ b.record_time) l) :
    List.Pairwise (fun a b => a.record_time ≤ b.record_time) (insertByTime x l) := by
  induction l with
  | nil => simp [insertByTime]
  | cons y ys ih =>
    rcases List.pairwise_cons.mp h with ⟨hy, hys⟩
    simp only [insertByTime]
    split
    · refine List.pairwise_cons.mpr ⟨?_, h⟩
      intro b hb
      rcases List.mem_cons.mp hb with rfl | hb
      · assumption
      · exact le_trans (by assumption) (hy b hb)
    · refine List.pairwise_cons.mpr ⟨?_, ih hys⟩
      intro b hb
      rcases (mem_insertByTime b x ys).mp hb with rfl | hb
      · exact le_of_not_le (by assumption)
      · exact hy b hb

theorem sortByTime_pairwise (l : List AggRecordTimeInfo) :
    List.Pairwise (fun a b => a.record_time ≤ b.record_time) (sortByTime l) := by
  induction l with
  | nil => simp [sortByTime]
  | cons x xs ih => exact insertByTime_pairwise x _ ih

theorem sortByTime_replicate_stop (k : Nat) :
    sortByTime (List.replicate k (⟨"", stopTime⟩ : AggRecordTimeInfo)) =
      List.replicate k ⟨"", stopTime⟩ := by
  induction k with
  | zero => rfl
  | succ n ih =>
    rw [List.replicate_succ, sortByTime, ih]
    cases n with
    | zero => rfl
    | succ m => simp [List.replicate_succ, insertByTime]

theorem insertByTime_append_stop (x : AggRecordTimeInfo) (s : List AggRecordTimeInfo)
    (k : Nat) (hx : x.record_time < stopTime) :
    insertByTime x (s ++ List.replicate k ⟨"", stopTime⟩) =
      insertByTime x s ++ List.replicate k ⟨"", stopTime⟩ := by
  induction s with
  | nil =>
    cases k with
    | zero => rfl
    | succ m => simp [List.replicate_succ, insertByTime, le_of_lt hx]
  | cons y ys ih =>
    simp only [List.cons_append, insertByTime]
    split
    · simp
    · simp [ih]

theorem sortByTime_append_stop (l : List AggRecordTimeInfo) (k : Nat)
    (h : ∀ o ∈ l, o.record_time < stopTime) :
    sortByTime (l ++ List.replicate k ⟨"", stopTime⟩) =
      sortByTime l ++ List.replicate k ⟨"", stopTime⟩ := by
  induction l with
  | nil => simpa using sortByTime_replicate_stop k
  | cons x xs ih =>
    simp only [List.cons_append, sortByTime, List.append_eq]
    rw [ih (fun o ho => h o (by simp [ho]))]
    exact insertByTime_append_stop _ _ _ (h x (by simp))

theorem tdGet_mem (td : List AggRecordTimeInfo) (i : Int) (h0 : 0 ≤ i)
    (h : i < (td.length : Int)) : tdGet td i ∈ td := by
  unfold tdGet
  rw [List.getD_eq_getElem _ _ (by omega)]
  exact List.getElem_mem _

theorem tdGet_mono (td : List AggRecordTimeInfo)
    (hp : List.Pairwise (fun a b => a.record_time ≤ b.record_time) td)
    (i j : Int) (h0 : 0 ≤ i) (hij : i ≤ j) (hj : j < (td.length : Int)) :
    (tdGet td i).record_time ≤ (tdGet td j).record_time := by
  have hi' : i.toNat < td.length := by omega
  have hj' : j.toNat < td.length := by omega
  unfold tdGet
  rw [List.getD_eq_getElem _ _ hi', List.getD_eq_getElem _ _ hj']
  rcases Nat.lt_or_ge i.toNat j.toNat with hlt | hge
  · have := List.pairwise_iff_get.mp hp ⟨i.toNat, hi'⟩ ⟨j.toNat, hj'⟩ hlt
    simpa using this
  · have hij' : i.toNat = j.toNat := by omega
    simp [hij']

theorem tdGet_append_lt (u v : List AggRecordTimeInfo) (i : Int) (h0 : 0 ≤ i)
    (h : i < (u.length : Int)) : tdGet (u ++ v) i = tdGet u i := by
  unfold tdGet
  exact List.getD_append _ _ _ _ (by omega)

theorem tdGet_append_ge (u v : List AggRecordTimeInfo) (i : Int)
    (h : (u.length : Int) ≤ i) : tdGet (u ++ v) i = tdGet v (i - u.length) := by
  have hn : u.length ≤ i.toNat := by omega
  unfold tdGet
  rw [List.getD_append_right _ _ _ _ hn]
  congr 1
  omega

theorem tdGet_replicate_stop (k : Nat) (i : Int) :
    tdGet (List.replicate k (⟨"", stopTime⟩ : AggRecordTimeInfo)) i = ⟨"", stopTime⟩ := by
  unfold tdGet
  rcases Nat.lt_or_ge i.toNat k with hlt | hge
  · rw [List.getD_eq_getElem _ _ (by simpa using hlt)]
    simp
  · exact List.getD_eq_default _ _ (by simpa using hge)

theorem tdGet_default (td : List AggRecordTimeInfo) (i : Int)
    (h : (td.length : Int) ≤ i) : tdGet td i = ⟨"", stopTime⟩ := by
  unfold tdGet
  exact List.getD_eq_default _ _ (by omega)

/-! # Claim theorems -/

/-- C1 (counterexample): with `count() >= 3` (no count field), `timeframe 2h`
and the ten S6 observations, the flush does not produce exactly two
`AggResult`s, and the produced anchors are not 01:30 and 20:00. -/
theorem C1_counterexample :
    (judge_timeframe c1Rule c1Obs "_").length ≠ 2 ∧
    (judge_timeframe c1Rule c1Obs "_").map AggResult.start_timedate ≠ [5400, 72000] := by
  decide

/-- C1 (amended): flushing that slot produces exactly three `AggResult`s,
each counting 3 observations, anchored at 00:30, 03:30 and 19:00. -/
theorem C1_amended :
    judge_timeframe c1Rule c1Obs "_" =
      [⟨3, "_", [], 1800, ">= 3"⟩, ⟨3, "_", [], 12600, ">= 3"⟩,
       ⟨3, "_", [], 68400, ">= 3"⟩] := by
  decide

/-- C2 (counterexample): for `count(F) <= 3` with a 7200-second timeframe and
observations `a@0`, `b@10000`, `c@20000`, the first emitted window is
anchored at 0 and includes the field value `b` — whose only observation lies
10000 > 7200 seconds after the anchor. -/
theorem C2_counterexample :
    (judge_timeframe c2Rule c2Obs "_").head? = some ⟨2, "_", ["a", "b"], 0, "<= 3"⟩ ∧
    (∀ o ∈ c2Obs, o.field_record_value = "b" → o.record_time = 10000) ∧
    (0 : Int) + 7200 < 10000 := by
  decide

/-- C3 (counterexample): a timeframe-less `count() >= 1` slot with K = 2
observations emits exactly one window, not ⌊K/N⌋ = 2. -/
theorem C3_counterexample :
    (judge_timeframe c3Rule [⟨"", 0⟩, ⟨"", 100⟩] "_").length = 1 ∧
    (1 : Nat) ≠ 2 / 1 := by
  decide

/-- Pushing onto a slot appends the observation to exactly that slot. -/
theorem countdataGet_push (cd : List (String × List AggRecordTimeInfo))
    (key : String) (obs : AggRecordTimeInfo) :
    countdataGet (countdataPush cd key obs) key = countdataGet cd key ++ [obs] := by
  induction cd with
  | nil => simp [countdataPush, countdataGet]
  | cons kv rest ih =>
    obtain ⟨k, v⟩ := kv
    by_cases h : k = key
    · simp [countdataPush, countdataGet, h]
    · simp [countdataPush, countdataGet, h, ih]

/-- C4 (counterexample): evaluating a record with an unparsable event time
against an aggregating rule does not leave the count state unchanged — the
slot `_` of a fresh `count() >= 1` rule grows. -/
theorem C4_counterexample :
    count ⟨⟨some ⟨none, none, .GE, 1⟩, none⟩, []⟩ "_" "" none ≠
      (⟨⟨some ⟨none, none, .GE, 1⟩, none⟩, []⟩ : RuleNode) := by
  decide

/-- C4 (amended): a record whose event time fails to parse is still counted
by an aggregating rule: `count` appends to the record's slot one observation
carrying the sentinel timestamp 1977-01-01T00:00:00Z (`default_time`); the
rest of the state is untouched.  Non-aggregating rules are unaffected (they
do not call `count`). -/
theorem C4_amended (rule : RuleNode) (key field_value : String) :
    countdataGet (count rule key field_value none).countdata key =
      countdataGet rule.countdata key ++ [⟨field_value, defaultTime⟩] ∧
    (count rule key field_value none).detection = rule.detection := by
  refine ⟨?_, rfl⟩
  simpa [count, countup] using countdataGet_push rule.countdata key _

/-- C7 (counterexample): a rule whose `level` is none of the five ranks (here
`apocalyptic`) is nevertheless kept by the loader's level filter when the
minimum level is `INFORMATIONAL`. -/
theorem C7_counterexample :
    lmGet level_map (toUpperStr "apocalyptic") = none ∧
    level_filter_keeps (some "apocalyptic") "INFORMATIONAL" = true := by
  decide

/-- C7 (amended): the loader does not reject unknown levels; it maps them to
rank 1 (informational).  A rule whose uppercased `level` is not in the level
map is kept exactly when the requested minimum level also ranks at 1 (i.e.
it is dropped only when the minimum level ranks above informational). -/
theorem C7_amended (doc arg : String)
    (h : lmGet level_map (toUpperStr doc) = none) :
    level_filter_keeps (some doc) arg = true ↔ (lmGet level_map arg).getD 1 ≤ 1 := by
  unfold level_filter_keeps
  simp only [Option.getD_some, h, Option.getD_none]
  constructor
  · intro hkeep
    simp only [decide_eq_true_eq] at hkeep
    omega
  · intro hle
    simp only [decide_eq_true_eq]
    omega

/-- C7 (witness): the amended statement at the unknown level `apocalyptic`
with minimum level `HIGH` (rank 4 > 1: the rule is dropped). -/
theorem C7_amended_witness :
    lmGet level_map (toUpperStr "apocalyptic") = none ∧
    (level_filter_keeps (some "apocalyptic") "HIGH" = true ↔
      (lmGet level_map "HIGH").getD 1 ≤ 1) ∧
    level_filter_keeps (some "apocalyptic") "HIGH" = false := by
  refine ⟨by decide, C7_amended "apocalyptic" "HIGH" (by decide), by decide⟩

/-- C8: `select_aggcon` implements the five comparators as the corresponding
integer comparisons; with threshold 0, `>=` accepts every count `c ≥ 0` and
`>` accepts exactly the counts `c ≥ 1`. -/
theorem C8_select_aggcon (c n : Int) (f b : Option String) :
    (0 ≤ c → select_aggcon c ⟨f, b, .GE, 0⟩ = true) ∧
    (0 ≤ c → (select_aggcon c ⟨f, b, .GT, 0⟩ = true ↔ 1 ≤ c)) ∧
    (select_aggcon c ⟨f, b, .EQ, n⟩ = true ↔ c = n) ∧
    (select_aggcon c ⟨f, b, .GE, n⟩ = true ↔ n ≤ c) ∧
    (select_aggcon c ⟨f, b, .LE, n⟩ = true ↔ c ≤ n) ∧
    (select_aggcon c ⟨f, b, .GT, n⟩ = true ↔ n < c) ∧
    (select_aggcon c ⟨f, b, .LT, n⟩ = true ↔ c < n) := by
  unfold select_aggcon
  refine ⟨?_, ?_, ?_, ?_, ?_, ?_, ?_⟩ <;>
    · simp only
      split_ifs <;> simp_all <;> omega

/-- C8 (witness): the comparator facts instantiated at `c = 5`, `n = 3`. -/
theorem C8_select_aggcon_witness :
    select_aggcon 5 ⟨none, none, .GE, 0⟩ = true ∧
    (select_aggcon 5 ⟨none, none, .GT, 0⟩ = true ↔ (1 : Int) ≤ 5) ∧
    (select_aggcon 5 ⟨none, none, .EQ, 3⟩ = true ↔ (5 : Int) = 3) := by
  have h := C8_select_aggcon 5 3 none none
  exact ⟨h.1 (by decide), h.2.1 (by decide), h.2.2.1⟩

/-- C10: the flush is read-only and repeatable — `aggregation_condition_select`
borrows the rule immutably, so the count state after a flush is the state
before it, and a second flush on the resulting state returns the same result
vector. -/
theorem C10_flush_pure (rule : RuleNode) :
    (aggregation_condition_select_run rule).2.countdata = rule.countdata ∧
    (aggregation_condition_select_run ((aggregation_condition_select_run rule).2)).1 =
      (aggregation_condition_select_run rule).1 :=
  ⟨rfl, rfl⟩

/-- C5 (counterexample): for the condition `all of 1 of b*` over the single
selection name `b1`, the occurrence's written prefix `1 of b` matches no
selection name, yet the rule is not rejected: the code strips the inner
`1 of ` too, expands to `(b1)` and compiles successfully. -/
theorem C5_counterexample :
    (List.filter (fun k => ("1 of b".toList).isPrefixOf k) ["b1".toList]) = [] ∧
    convert_condition ("all of 1 of b*".toList) ["b1".toList] = "(b1)".toList ∧
    exceptIsOk (compile_condition ("all of 1 of b*".toList) ["b1".toList]) = true := by
  decide

/-- C9 (counterexample): pre-expansion is not a fixed point under repetition:
for the condition `1 of a* and all of 1 of a**` over the selection name
`a1`, a second application of `convert_condition` changes the string again. -/
theorem C9_counterexample :
    convert_condition
        (convert_condition ("1 of a* and all of 1 of a**".toList) ["a1".toList])
        ["a1".toList] ≠
      convert_condition ("1 of a* and all of 1 of a**".toList) ["a1".toList] := by
  decide

/-- A string without an `OF_SELECTION` match is a fixed point of
`convert_condition`. -/
theorem convert_condition_of_no_match (s : Str) (S : List Str)
    (h : findMatches s = []) : convert_condition s S = s := by
  unfold convert_condition
  rw [h]
  rfl

/-- C9 (amended): repetition is a fixed point whenever the once-converted
string contains no further occurrence of the `(all|1) of …*` pattern (which
holds for ordinary rules, where expansion eliminates every occurrence); in
general a leftover pattern occurrence can be rewritten again, so repetition
is not always a fixed point. -/
theorem C9_amended (c : Str) (S : List Str)
    (h : findMatches (convert_condition c S) = []) :
    convert_condition (convert_condition c S) S = convert_condition c S :=
  convert_condition_of_no_match _ _ h

/-- C9 (witness): the amended statement at `all of selection*` over
`selection1, selection2`. -/
theorem C9_amended_witness :
    findMatches (convert_condition ("all of selection*".toList)
        ["selection1".toList, "selection2".toList]) = [] ∧
    convert_condition
        (convert_condition ("all of selection*".toList)
          ["selection1".toList, "selection2".toList])
        ["selection1".toList, "selection2".toList] =
      convert_condition ("all of selection*".toList)
        ["selection1".toList, "selection2".toList] :=
  ⟨by decide, C9_amended _ _ (by decide)⟩

/-- A character string of digits contains no occurrence of a non-digit. -/
theorem contains_false_of_digits (ds : Str) (u : Char) (hu : u.isDigit = false)
    (h : ∀ c ∈ ds, c.isDigit = true) : ds.contains u = false := by
  simp only [List.contains, List.elem_eq_mem, decide_eq_false_iff_not]
  intro hmem
  exact absurd (h u hmem) (by simp [hu])

/-- A string ending in `u` contains `u`. -/
theorem contains_append_unit (ds : Str) (u : Char) : (ds ++ [u]).contains u = true := by
  simp [List.contains, List.elem_eq_mem]

/-- Removing the unit character from `digits ++ [unit]` leaves the digits. -/
theorem filter_append_unit (ds : Str) (u : Char) (h : ∀ c ∈ ds, c.isDigit = true)
    (hu : u.isDigit = false) :
    (ds ++ [u]).filter (· ≠ u) = ds := by
  rw [List.filter_append]
  have h1 : ds.filter (· ≠ u) = ds := by
    rw [List.filter_eq_self]
    intro a ha
    simp only [decide_eq_true_eq]
    intro he
    exact absurd (h a ha) (by simp [he, hu])
  have h2 : List.filter (fun x => decide (x ≠ u)) [u] = [] := by simp
  rw [h1, h2, List.append_nil]

/-- `parse::<i64>` accepts an unsigned digit string below the `i64` bound. -/
theorem parseI64_digits (ds : Str) (hne : ds ≠ []) (h : ∀ c ∈ ds, c.isDigit = true)
    (hb : (digitsVal ds : Int) < 2 ^ 63) : parseI64 ds = some (digitsVal ds : Int) := by
  cases ds with
  | nil => exact absurd rfl hne
  | cons c rest =>
    have hc := h c (by simp)
    have h1 : ¬ c = '+' := by intro he; rw [he] at hc; exact absurd hc (by decide)
    have h2 : ¬ c = '-' := by intro he; rw [he] at hc; exact absurd hc (by decide)
    have hall : (c :: rest).all Char.isDigit = true := List.all_eq_true.mpr h
    have hnn : (0 : Int) ≤ (digitsVal (c :: rest) : Int) := Int.natCast_nonneg _
    rw [parseI64, if_neg h1, if_neg h2, parseI64Core,
      if_neg (List.cons_ne_nil c rest), if_pos hall,
      if_pos (show _ ∧ _ from
        ⟨by rw [one_mul]; linarith [hnn, show ((0:Int) ≤ 2^63) by norm_num],
         by rw [one_mul]; exact hb⟩),
      one_mul]

/-- C6 (counterexample): the unitless value `300` is invalid (it has no unit
suffix, and `parse_tframe` fires its invalid-timeframe warning on it), yet
the effective timeframe does not become `None` — it becomes 300 seconds. -/
theorem C6_counterexample :
    (parse_tframe ("300".toList)).2 = true ∧
    (get_sec_timeframe (some (parse_tframe ("300".toList)).1)).1 = some 300 := by
  decide

/-- A string of digits ending in `u` does not contain the non-digit `w ≠ u`. -/
theorem contains_append_ne (ds : Str) (u w : Char) (hw : w.isDigit = false)
    (h : ∀ c ∈ ds, c.isDigit = true) (hne : w ≠ u) : (ds ++ [u]).contains w = false := by
  simp only [List.contains, List.elem_eq_mem, decide_eq_false_iff_not, List.mem_append,
    List.mem_singleton]
  rintro (hmem | rfl)
  · exact absurd (h w hmem) (by simp [hw])
  · exact hne rfl

/-- C6 (amended): a literal of digits with unit suffix `s`/`m`/`h`/`d`
converts to `n`, `60n`, `3600n`, `86400n` seconds.  A value with no unit
character fires the invalid-timeframe warning, and its effective timeframe
is whatever the whole text parses to as `i64` — `none` only when that parse
fails (a unitless integer is warned about but still used as seconds).  Any
value whose number part fails to parse yields `none`, with the number
warning. -/
theorem C6_amended (ds v : Str) (hne : ds ≠ [])
    (hds : ∀ c ∈ ds, c.isDigit = true) (hb : (digitsVal ds : Int) < 2 ^ 63) :
    ((get_sec_timeframe (some (parse_tframe (ds ++ ['s'])).1)).1 =
        some (digitsVal ds : Int) ∧
      (get_sec_timeframe (some (parse_tframe (ds ++ ['m'])).1)).1 =
        some ((digitsVal ds : Int) * 60) ∧
      (get_sec_timeframe (some (parse_tframe (ds ++ ['h'])).1)).1 =
        some ((digitsVal ds : Int) * 3600) ∧
      (get_sec_timeframe (some (parse_tframe (ds ++ ['d'])).1)).1 =
        some ((digitsVal ds : Int) * 86400)) ∧
    (v.contains 's' = false → v.contains 'm' = false → v.contains 'h' = false →
      v.contains 'd' = false →
      (parse_tframe v).2 = true ∧
      (get_sec_timeframe (some (parse_tframe v).1)).1 = parseI64 v) ∧
    ((parse_tframe v).1.timenum = none →
      get_sec_timeframe (some (parse_tframe v).1) = (none, true)) := by
  have hp := parseI64_digits ds hne hds hb
  refine ⟨⟨?_, ?_, ?_, ?_⟩, ?_, ?_⟩
  · rw [parse_tframe, if_pos (contains_append_unit ds 's'),
      filter_append_unit ds 's' hds (by decide), hp]
    rfl
  · rw [parse_tframe,
      if_neg (by rw [contains_append_ne ds 'm' 's' (by decide) hds (by decide)]; simp),
      if_pos (contains_append_unit ds 'm'),
      filter_append_unit ds 'm' hds (by decide), hp]
    rfl
  · rw [parse_tframe,
      if_neg (by rw [contains_append_ne ds 'h' 's' (by decide) hds (by decide)]; simp),
      if_neg (by rw [contains_append_ne ds 'h' 'm' (by decide) hds (by decide)]; simp),
      if_pos (contains_append_unit ds 'h'),
      filter_append_unit ds 'h' hds (by decide), hp]
    rfl
  · rw [parse_tframe,
      if_neg (by rw [contains_append_ne ds 'd' 's' (by decide) hds (by decide)]; simp),
      if_neg (by rw [contains_append_ne ds 'd' 'm' (by decide) hds (by decide)]; simp),
      if_neg (by rw [contains_append_ne ds 'd' 'h' (by decide) hds (by decide)]; simp),
      if_pos (contains_append_unit ds 'd'),
      filter_append_unit ds 'd' hds (by decide), hp]
    rfl
  · intro hs hm hh hd
    rw [parse_tframe, if_neg (by rw [hs]; simp), if_neg (by rw [hm]; simp),
      if_neg (by rw [hh]; simp), if_neg (by rw [hd]; simp)]
    refine ⟨rfl, ?_⟩
    cases hpv : parseI64 v with
    | none => rfl
    | some n => rfl
  · intro htn
    rcases hpt : (parse_tframe v).1 with ⟨tt, tn⟩
    rw [hpt] at htn
    simp only at htn
    rw [htn]
    rfl

/-- C6 (witness): the amended statement at the literal digits `42` and the
unitless value `xyz` (which fails the integer parse). -/
theorem C6_amended_witness :
    ((get_sec_timeframe (some (parse_tframe ("42".toList ++ ['s'])).1)).1 = some 42 ∧
      (get_sec_timeframe (some (parse_tframe ("42".toList ++ ['m'])).1)).1 = some 2520 ∧
      (get_sec_timeframe (some (parse_tframe ("42".toList ++ ['h'])).1)).1 = some 151200 ∧
      (get_sec_timeframe (some (parse_tframe ("42".toList ++ ['d'])).1)).1 = some 3628800) ∧
    ((parse_tframe ("xyz".toList)).2 = true ∧
      (get_sec_timeframe (some (parse_tframe ("xyz".toList)).1)).1 = parseI64 ("xyz".toList)) ∧
    get_sec_timeframe (some (parse_tframe ("xyz".toList)).1) = (none, true) := by
  have h := C6_amended ("42".toList) ("xyz".toList) (by decide) (by decide) (by decide)
  refine ⟨?_, h.2.1 (by decide) (by decide) (by decide) (by decide), h.2.2 (by decide)⟩
  have h1 := h.1
  exact ⟨h1.1, h1.2.1, h1.2.2.1, h1.2.2.2⟩

/-- Adding the empty-string value to the singleton empty-string slot. -/
theorem lfvAdd_empty_string (m : Nat) : lfvAdd [("", m)] "" = [("", m + 1)] := rfl

/-- One step of the timeframe-less addition count. -/
theorem noTfAdd_step (e : SweepEnv) (check : Int) (h : check < e.lenI) :
    noTfAdd e check =
      (if (tdGet e.td check).record_time ≠ stopTime ∧ check ≠ 0 then 1 else 0)
        + noTfAdd e (check + 1) := by
  unfold noTfAdd
  have h1 : (e.lenI - check).toNat = (e.lenI - (check + 1)).toNat + 1 := by omega
  rw [h1, noTfAddGo]

/-- Past the end, the timeframe-less loop adds nothing. -/
theorem noTfAdd_zero (e : SweepEnv) (check : Int) (h : e.lenI ≤ check) :
    noTfAdd e check = 0 := by
  unfold noTfAdd
  rw [show (e.lenI - check).toNat = 0 by omega]
  rfl

/-- Without a timeframe the sweep loop only advances the right cursor,
accumulating one count per non-sentinel, non-zero position; nothing is ever
emitted. -/
theorem sweepLoop_none (e : SweepEnv) (hnone : e.judge_sec_frame = none)
    (hfv : ∀ i : Int, (tdGet e.td i).field_record_value = "") :
    ∀ (fuel : Nat) (st check : Int) (m : Nat) (ret : List AggResult),
      (e.lenI - check).toNat < fuel →
      (tdGet e.td st).record_time ≠ stopTime →
      sweepLoop e fuel ⟨st, check, [("", m)], ret⟩ =
        ⟨st, max check e.lenI, [("", m + noTfAdd e check)], ret⟩ := by
  intro fuel
  induction fuel with
  | zero => intro st check m ret hf; omega
  | succ n ih =>
    intro st check m ret hf hst
    rcases lt_or_ge check e.lenI with hlt | hge
    · rw [sweepLoop, if_pos ⟨hst, hlt⟩, if_neg (by simp [hnone])]
      dsimp only
      rw [hfv check, lfvAdd_empty_string, noTfAdd_step e check hlt]
      by_cases hc : (tdGet e.td check).record_time ≠ stopTime ∧ check ≠ 0
      · rw [if_pos hc, if_pos hc, ih st (check + 1) (m + 1) ret (by omega) hst]
        have hmax : max (check + 1) e.lenI = max check e.lenI := by omega
        rw [hmax, Nat.add_assoc]
      · rw [if_neg hc, if_neg hc, ih st (check + 1) m ret (by omega) hst]
        have hmax : max (check + 1) e.lenI = max check e.lenI := by omega
        rw [hmax, Nat.zero_add]
    · rw [sweepLoop, if_neg (by dsimp only; intro hand; omega)]
      rw [noTfAdd_zero e check hge]
      have hmax : max check e.lenI = check := by omega
      rw [hmax, Nat.add_zero]

/-- Closed form of the timeframe-less addition count over the sorted-then-
sentinel-padded slot. -/
theorem noTfAdd_closed (e : SweepEnv) (K : Nat)
    (hKlen : (K : Int) ≤ e.lenI)
    (h1 : ∀ j : Int, 0 ≤ j → j < (K : Int) → (tdGet e.td j).record_time ≠ stopTime)
    (h2 : ∀ j : Int, (K : Int) ≤ j → (tdGet e.td j).record_time = stopTime) :
    ∀ (n : Nat) (check : Int), 0 ≤ check → (e.lenI - check).toNat = n →
      noTfAddGo e n check = ((K : Int) - max check 1).toNat := by
  intro n
  induction n with
  | zero =>
    intro check h0 hn
    rw [noTfAddGo]
    omega
  | succ n ih =>
    intro check h0 hn
    rw [noTfAddGo, ih (check + 1) (by omega) (by omega)]
    have hcheckK : (tdGet e.td check).record_time ≠ stopTime ↔ check < (K : Int) := by
      constructor
      · intro hnz
        by_contra hge
        exact hnz (h2 check (by omega))
      · intro hlt
        exact h1 check h0 hlt
    by_cases hcond : (tdGet e.td check).record_time ≠ stopTime ∧ check ≠ 0
    · rw [if_pos hcond]
      have hcK := hcheckK.mp hcond.1
      have hz := hcond.2
      omega
    · rw [if_neg hcond]
      by_cases hz : check = 0
      · subst hz
        omega
      · have hstop : ¬ (tdGet e.td check).record_time ≠ stopTime :=
          fun hnz => hcond ⟨hnz, hz⟩
        have hKc : ¬ check < (K : Int) := fun hlt => hstop (hcheckK.mpr hlt)
        omega

/-- Beyond the observations, the padded slot reads the sentinel. -/
theorem td_stop_right (l : List AggRecordTimeInfo) (k : Nat) (j : Int)
    (hj : (l.length : Int) ≤ j) :
    tdGet (sortByTime l ++ List.replicate k ⟨"", stopTime⟩) j = ⟨"", stopTime⟩ := by
  rcases lt_or_ge j ((sortByTime l ++ List.replicate k (⟨"", stopTime⟩ : AggRecordTimeInfo)).length : Int) with hlt | hge
  · rw [tdGet_append_ge _ _ _ (by rw [sortByTime_length]; omega)]
    exact tdGet_replicate_stop _ _
  · exact tdGet_default _ _ hge

/-- Within the first `l.length` positions, the padded slot reads an
observation of `l`. -/
theorem td_obs_left (l : List AggRecordTimeInfo) (k : Nat) (j : Int)
    (h0 : 0 ≤ j) (hj : j < (l.length : Int)) :
    tdGet (sortByTime l ++ List.replicate k ⟨"", stopTime⟩) j ∈ l := by
  rw [tdGet_append_lt _ _ _ h0 (by rw [sortByTime_length]; omega)]
  rw [← mem_sortByTime]
  exact tdGet_mem _ _ h0 (by rw [sortByTime_length]; omega)

/-- All positions of the padded slot carry the empty field value when the
observations do. -/
theorem td_fv_empty (l : List AggRecordTimeInfo) (k : Nat)
    (hfv : ∀ o ∈ l, o.field_record_value = "") (j : Int) :
    (tdGet (sortByTime l ++ List.replicate k ⟨"", stopTime⟩) j).field_record_value = "" := by
  rcases lt_or_ge j 0 with hneg | h0
  · unfold tdGet
    rcases Nat.lt_or_ge j.toNat
        (sortByTime l ++ List.replicate k (⟨"", stopTime⟩ : AggRecordTimeInfo)).length
      with hlt | hge
    · rw [List.getD_eq_getElem _ _ hlt]
      rcases List.mem_append.mp (List.getElem_mem hlt) with hm | hm
      · exact hfv _ ((mem_sortByTime _ _).mp hm)
      · rw [List.eq_of_mem_replicate hm]
    · rw [List.getD_eq_default _ _ hge]
  · rcases lt_or_ge j ((l.length : Int)) with hlt | hge
    · exact hfv _ (td_obs_left l k j h0 hlt)
    · rw [td_stop_right l k j hge]

/-- C3 (amended): a timeframe-less `count() >= N` rule emits at most one
window per slot — exactly one `AggResult`, counting
`c = 1 + (K - max (N-1) 1)` for K observations (so `c = K` when `N = 1`,
`c = K - N + 2` when `N - 1 ≤ K`, and `c = 1` otherwise), anchored at the
earliest observation, when `c ≥ N`; nothing otherwise.  Never ⌊K/N⌋
windows. -/
theorem C3_amended (N : Int) (by_f : Option String) (key : String)
    (time_datas : List AggRecordTimeInfo) (hN : 1 ≤ N) (hne : time_datas ≠ [])
    (hobs : ∀ o ∈ time_datas, o.record_time < stopTime ∧ o.field_record_value = "") :
    judge_timeframe ⟨⟨some ⟨none, by_f, .GE, N⟩, none⟩, []⟩ time_datas key =
      (if N ≤ (1 : Int) + (((time_datas.length : Int) - max (N - 1) 1).toNat : Int) then
        [⟨(1 : Int) + (((time_datas.length : Int) - max (N - 1) 1).toNat : Int), key, [],
          (tdGet (sortByTime time_datas) 0).record_time, ">= " ++ toString N⟩]
      else []) := by
  have hts : ∀ o ∈ time_datas, o.record_time < stopTime := fun o ho => (hobs o ho).1
  have hfve : ∀ o ∈ time_datas, o.field_record_value = "" := fun o ho => (hobs o ho).2
  have hKpos : 1 ≤ time_datas.length := List.length_pos.mpr hne
  have hNt : (N.toNat : Int) = N := Int.toNat_of_nonneg (by omega)
  unfold judge_timeframe
  dsimp only [Option.getD_some]
  rw [sortByTime_append_stop time_datas N.toNat hts]
  set td := sortByTime time_datas ++
    List.replicate N.toNat (⟨"", stopTime⟩ : AggRecordTimeInfo) with htd
  have hlen : td.length = time_datas.length + N.toNat := by
    rw [htd, List.length_append, sortByTime_length, List.length_replicate]
  have hlenI : (td.length : Int) = (time_datas.length : Int) + N := by
    rw [hlen]; push_cast [hNt]; ring
  have hfv0 : (tdGet td 0).field_record_value = "" := td_fv_empty _ _ hfve 0
  have hst0 : (tdGet td 0).record_time ≠ stopTime := by
    have hmem := td_obs_left time_datas N.toNat 0 le_rfl (by exact_mod_cast hKpos)
    exact ne_of_lt (hts _ hmem)
  have hchk : getNextCheckpoint (td.length : Int) N 0 = N - 1 := by
    unfold getNextCheckpoint
    rw [if_neg (by omega)]
    omega
  simp only [show (get_sec_timeframe none).1 = none from rfl, Option.isSome_none,
    Option.isNone_none, hfv0, show lfvAdd [] "" = [("", 1)] from rfl, hchk]
  set E : SweepEnv := ⟨td, (td.length : Int), ⟨none, by_f, .GE, N⟩, false, none, key,
    get_str_agg_eq ⟨⟨some ⟨none, by_f, .GE, N⟩, none⟩, []⟩⟩ with hE
  have hfvE : ∀ i : Int, (tdGet E.td i).field_record_value = "" :=
    fun i => td_fv_empty _ _ hfve i
  have hfuel : (E.lenI - (N - 1)).toNat < (td.length + 2) * (td.length + 2) := by
    have h2 : td.length + 2 ≤ (td.length + 2) * (td.length + 2) :=
      Nat.le_mul_of_pos_right _ (by omega)
    have h1 : ((td.length : Int) - (N - 1)).toNat ≤ td.length + 1 := by omega
    have h3 : (E.lenI - (N - 1)).toNat = ((td.length : Int) - (N - 1)).toNat := rfl
    omega
  rw [sweepLoop_none E rfl hfvE ((td.length + 2) * (td.length + 2)) 0 (N - 1) 1 []
    hfuel hst0]
  have hcnt : noTfAdd E (N - 1) = ((time_datas.length : Int) - max (N - 1) 1).toNat := by
    have h1 : ∀ j : Int, 0 ≤ j → j < (time_datas.length : Int) →
        (tdGet E.td j).record_time ≠ stopTime := by
      intro j h0 hj
      exact ne_of_lt (hts _ (td_obs_left time_datas N.toNat j h0 hj))
    have h2 : ∀ j : Int, (time_datas.length : Int) ≤ j →
        (tdGet E.td j).record_time = stopTime := by
      intro j hj
      show (tdGet td j).record_time = stopTime
      rw [td_stop_right time_datas N.toNat j hj]
    have hKlen : ((time_datas.length : Nat) : Int) ≤ E.lenI := by
      show ((time_datas.length : Nat) : Int) ≤ (td.length : Int)
      omega
    unfold noTfAdd
    exact noTfAdd_closed E time_datas.length hKlen h1 h2 _ (N - 1) (by omega) rfl
  rw [hcnt]
  dsimp only
  simp only [if_true]
  rw [if_neg (by simp)]
  have hgetD : ∀ m : Nat, (lfvGet [("", m)] "").getD 0 = m := fun m => rfl
  simp only [hgetD]
  set X : Nat := ((time_datas.length : Int) - max (N - 1) 1).toNat with hX
  have hanchor : tdGet td 0 = tdGet (sortByTime time_datas) 0 :=
    tdGet_append_lt _ _ 0 le_rfl (by rw [sortByTime_length]; exact_mod_cast hKpos)
  have hstr : get_str_agg_eq (⟨⟨some ⟨none, by_f, .GE, N⟩, none⟩, []⟩ : RuleNode) =
      ">= " ++ toString N := rfl
  by_cases hcN : N ≤ (1 : Int) + (X : Int)
  · have hsel : select_aggcon ((1 + X : Nat) : Int) ⟨none, by_f, .GE, N⟩ = true := by
      unfold select_aggcon
      dsimp only
      rw [if_pos (by push_cast; omega)]
    rw [if_pos hsel, if_pos hcN]
    simp only [List.nil_append, hanchor, hstr, List.cons.injEq, and_true, AggResult.mk.injEq]
    push_cast
    ring
  · have hsel : select_aggcon ((1 + X : Nat) : Int) ⟨none, by_f, .GE, N⟩ = false := by
      unfold select_aggcon
      dsimp only
      rw [if_neg (by push_cast; omega)]
    rw [if_neg (by rw [hsel]; simp), if_neg hcN]

/-- C3 (witness): the amended statement at `count() >= 3` over four
observations: one window, counting `1 + (4 - 2) = 3`, anchored at the
earliest timestamp. -/
theorem C3_amended_witness :
    judge_timeframe ⟨⟨some ⟨none, none, .GE, 3⟩, none⟩, []⟩
        [⟨"", 0⟩, ⟨"", 100⟩, ⟨"", 200⟩, ⟨"", 300⟩] "_" =
      [⟨3, "_", [], 0, ">= 3"⟩] := by
  have h := C3_amended 3 none "_" [⟨"", 0⟩, ⟨"", 100⟩, ⟨"", 200⟩, ⟨"", 300⟩]
    (by decide) (by decide) (by decide)
  rw [h]
  decide

theorem sweepLoopW_erase (e : SweepEnv) :
    ∀ (fuel : Nat) (s : SweepStateW),
      sweepLoop e fuel (eraseSW s) = eraseSW (sweepLoopW e fuel s) := by
  intro fuel
  induction fuel with
  | zero => intro s; rfl
  | succ n ih =>
    intro s
    rw [sweepLoop, sweepLoopW]
    conv_lhs => dsimp only [eraseSW]
    conv_rhs => dsimp only []
    split_ifs <;>
      first
        | rfl
        | (rw [← ih]; rfl)
        | (rw [← ih]; congr 1; simp [eraseSW])

theorem judge_windows_erase (rule : RuleNode) (time_datas : List AggRecordTimeInfo)
    (key : String) :
    (judge_timeframe_windows rule time_datas key).map Prod.fst =
      judge_timeframe rule time_datas key := by
  unfold judge_timeframe_windows judge_timeframe
  dsimp only []
  set agg := (rule.detection.aggregation_condition).getD ⟨none, none, .other, 0⟩ with hagg
  set td := sortByTime (time_datas ++
    List.replicate agg.cmp_num.toNat (⟨"", stopTime⟩ : AggRecordTimeInfo)) with htd
  set E : SweepEnv := ⟨td, (td.length : Int), agg, agg.field_name.isSome,
    (get_sec_timeframe rule.detection.timeframe).1, key, get_str_agg_eq rule⟩ with hE
  set sW : SweepStateW := ⟨0, getNextCheckpoint (td.length : Int) agg.cmp_num 0,
    lfvAdd [] (tdGet td 0).field_record_value, []⟩ with hsW
  have h0 : (⟨0, getNextCheckpoint (td.length : Int) agg.cmp_num 0,
      lfvAdd [] (tdGet td 0).field_record_value, []⟩ : SweepState) = eraseSW sW := rfl
  rw [h0, sweepLoopW_erase]
  dsimp only [eraseSW]
  split_ifs <;> simp [eraseSW]

theorem gnc_facts (lenI N cal : Int) :
    getNextCheckpoint lenI N cal ≤ cal + N - 1 ∧
    getNextCheckpoint lenI N cal ≤ lenI - 1 ∧
    (lenI - 1 ≤ getNextCheckpoint lenI N cal ∨
      getNextCheckpoint lenI N cal = cal + N - 1) := by
  unfold getNextCheckpoint
  split_ifs <;> omega

theorem select_aggcon_ge_of (cnt : Int) (a : AggregationParseInfo)
    (hop : a.cmp_op = .EQ ∨ a.cmp_op = .GE ∨ a.cmp_op = .GT)
    (h : select_aggcon cnt a = true) : a.cmp_num ≤ cnt := by
  obtain ⟨fn, bf, op, num⟩ := a
  rcases hop with h' | h' | h' <;>
    (dsimp only [] at h' ⊢; subst h'; simp [select_aggcon] at h; omega)

theorem sweepLoopW_spans (e : SweepEnv) (tf : Int)
    (hf : e.exist_field = false) (hsf : e.judge_sec_frame = some tf)
    (hN1 : 1 ≤ e.aggcondition.cmp_num)
    (hop : e.aggcondition.cmp_op = .EQ ∨ e.aggcondition.cmp_op = .GE ∨
      e.aggcondition.cmp_op = .GT) :
    ∀ (fuel : Nat) (s : SweepStateW),
      0 ≤ s.start_point →
      getNextCheckpoint e.lenI e.aggcondition.cmp_num s.start_point ≤ s.check_point →
      (getNextCheckpoint e.lenI e.aggcondition.cmp_num s.start_point < s.check_point →
        (tdGet e.td (s.check_point - 1)).record_time ≤
          (tdGet e.td s.start_point).record_time + tf) →
      (∀ w ∈ s.retW, 0 ≤ w.2.1 ∧ w.2.2 ≤ e.lenI ∧
        w.1.start_timedate = (tdGet e.td w.2.1).record_time ∧
        (tdGet e.td (w.2.2 - 1)).record_time ≤ (tdGet e.td w.2.1).record_time + tf) →
      ∀ w ∈ (sweepLoopW e fuel s).retW, 0 ≤ w.2.1 ∧ w.2.2 ≤ e.lenI ∧
        w.1.start_timedate = (tdGet e.td w.2.1).record_time ∧
        (tdGet e.td (w.2.2 - 1)).record_time ≤ (tdGet e.td w.2.1).record_time + tf := by
  intro fuel
  induction fuel with
  | zero => intro s _ _ _ hret; exact hret
  | succ n ih =>
    intro s h0 hle himp hret
    rw [sweepLoopW]
    dsimp only []
    by_cases h1 : (tdGet e.td s.start_point).record_time ≠ stopTime ∧ s.check_point < e.lenI
    · rw [if_pos h1]
      by_cases h2 : e.judge_sec_frame.isSome = true ∧
          (tdGet e.td s.check_point).record_time - (tdGet e.td s.start_point).record_time >
            e.judge_sec_frame.getD 0
      · rw [if_pos h2]
        simp only [hf, Bool.false_eq_true, false_and, if_false]
        by_cases h3 : select_aggcon (s.check_point - s.start_point) e.aggcondition = true
        · rw [if_neg (by simpa using h3)]
          have hsel := select_aggcon_ge_of _ _ hop h3
          have hg := gnc_facts e.lenI e.aggcondition.cmp_num s.start_point
          have hspan := himp (by omega)
          apply ih
          · dsimp only []
            omega
          · exact le_refl _
          · intro hc; exact absurd hc (lt_irrefl _)
          · intro w hw
            dsimp only [] at hw
            rcases List.mem_append.mp hw with hw' | hw'
            · exact hret w hw'
            · rcases List.mem_singleton.mp hw' with rfl
              refine ⟨h0, ?_, rfl, hspan⟩
              dsimp only []
              omega
        · rw [if_pos (by simpa using h3)]
          apply ih
          · dsimp only []
            omega
          · exact le_refl _
          · intro hc; exact absurd hc (lt_irrefl _)
          · exact hret
      · rw [if_neg h2]
        rw [hsf] at h2
        simp only [Option.isSome_some, Option.getD_some, eq_self_iff_true, true_and, not_lt] at h2
        apply ih
        · exact h0
        · dsimp only []
          omega
        · dsimp only []
          intro _
          rw [show s.check_point + 1 - 1 = s.check_point from by ring]
          linarith
        · exact hret
    · rw [if_neg h1]
      exact hret

theorem judge_windows_spans (by_f : Option String) (op : AggregationConditionToken)
    (N tf : Int) (key : String) (time_datas : List AggRecordTimeInfo)
    (hop : op = .EQ ∨ op = .GE ∨ op = .GT) (hN : 1 ≤ N) :
    ∀ w ∈ judge_timeframe_windows ⟨⟨some ⟨none, by_f, op, N⟩, some ⟨"s", some tf⟩⟩, []⟩
        time_datas key,
      0 ≤ w.2.1 ∧
      w.2.2 ≤ ((sortByTime (time_datas ++
        List.replicate N.toNat (⟨"", stopTime⟩ : AggRecordTimeInfo))).length : Int) ∧
      w.1.start_timedate =
        (tdGet (sortByTime (time_datas ++
          List.replicate N.toNat (⟨"", stopTime⟩ : AggRecordTimeInfo))) w.2.1).record_time ∧
      (tdGet (sortByTime (time_datas ++
          List.replicate N.toNat (⟨"", stopTime⟩ : AggRecordTimeInfo)))
        (w.2.2 - 1)).record_time ≤
        (tdGet (sortByTime (time_datas ++
          List.replicate N.toNat (⟨"", stopTime⟩ : AggRecordTimeInfo))) w.2.1).record_time + tf := by
  unfold judge_timeframe_windows
  dsimp only []
  simp only [Option.getD_some, Option.isSome_none,
    show (get_sec_timeframe (some ⟨"s", some tf⟩)).1 = some tf from rfl,
    Option.isNone_some, Bool.false_eq_true, if_false]
  exact sweepLoopW_spans _ tf rfl rfl hN hop _ _ (le_refl 0) (le_refl _)
    (fun h => absurd h (lt_irrefl _)) (by simp)

/-- C2 (amended): with `count() OP N` (no count field), `OP` one of `==`,
`>=`, `>`, `N >= 1` and a timeframe of `tf` seconds, every window the sweep
emits is anchored at the record under the left cursor, and every observation
the window counted (indices `[start, check)` of the sorted, sentinel-padded
slot) lies at most `tf` seconds after that anchor. -/
theorem C2_amended (by_f : Option String) (op : AggregationConditionToken)
    (N tf : Int) (key : String) (time_datas : List AggRecordTimeInfo)
    (hop : op = .EQ ∨ op = .GE ∨ op = .GT) (hN : 1 ≤ N) :
    ((judge_timeframe_windows ⟨⟨some ⟨none, by_f, op, N⟩, some ⟨"s", some tf⟩⟩, []⟩
        time_datas key).map Prod.fst =
      judge_timeframe ⟨⟨some ⟨none, by_f, op, N⟩, some ⟨"s", some tf⟩⟩, []⟩ time_datas key) ∧
    ∀ w ∈ judge_timeframe_windows ⟨⟨some ⟨none, by_f, op, N⟩, some ⟨"s", some tf⟩⟩, []⟩
        time_datas key,
      w.1.start_timedate =
        (tdGet (sortByTime (time_datas ++
          List.replicate N.toNat (⟨"", stopTime⟩ : AggRecordTimeInfo))) w.2.1).record_time ∧
      ∀ i : Int, w.2.1 ≤ i → i < w.2.2 →
        (tdGet (sortByTime (time_datas ++
          List.replicate N.toNat (⟨"", stopTime⟩ : AggRecordTimeInfo))) i).record_time ≤
          w.1.start_timedate + tf := by
  refine ⟨judge_windows_erase _ _ _, ?_⟩
  intro w hw
  obtain ⟨hL0, hRlen, hanchor, hspan⟩ :=
    judge_windows_spans by_f op N tf key time_datas hop hN w hw
  refine ⟨hanchor, ?_⟩
  intro i hLi hiR
  rw [hanchor]
  have hpw := sortByTime_pairwise (time_datas ++
    List.replicate N.toNat (⟨"", stopTime⟩ : AggRecordTimeInfo))
  have hmono := tdGet_mono _ hpw i (w.2.2 - 1) (by omega) (by omega) (by omega)
  linarith

/-- C2 (amended), instantiated: `count() >= 2`, timeframe 7200 s, two
observations at 0 and 1000. -/
theorem C2_amended_witness :
    ((AggregationConditionToken.GE = AggregationConditionToken.EQ ∨
        AggregationConditionToken.GE = AggregationConditionToken.GE ∨
        AggregationConditionToken.GE = AggregationConditionToken.GT) ∧
      (1 : Int) ≤ 2) ∧
    (((judge_timeframe_windows ⟨⟨some ⟨none, none, .GE, 2⟩, some ⟨"s", some 7200⟩⟩, []⟩
        [⟨"", 0⟩, ⟨"", 1000⟩] "_").map Prod.fst =
      judge_timeframe ⟨⟨some ⟨none, none, .GE, 2⟩, some ⟨"s", some 7200⟩⟩, []⟩
        [⟨"", 0⟩, ⟨"", 1000⟩] "_") ∧
    ∀ w ∈ judge_timeframe_windows ⟨⟨some ⟨none, none, .GE, 2⟩, some ⟨"s", some 7200⟩⟩, []⟩
        [⟨"", 0⟩, ⟨"", 1000⟩] "_",
      w.1.start_timedate =
        (tdGet (sortByTime ([⟨"", 0⟩, ⟨"", 1000⟩] ++
          List.replicate (Int.toNat 2) (⟨"", stopTime⟩ : AggRecordTimeInfo))) w.2.1).record_time ∧
      ∀ i : Int, w.2.1 ≤ i → i < w.2.2 →
        (tdGet (sortByTime ([⟨"", 0⟩, ⟨"", 1000⟩] ++
          List.replicate (Int.toNat 2) (⟨"", stopTime⟩ : AggRecordTimeInfo))) i).record_time ≤
          w.1.start_timedate + 7200) :=
  ⟨⟨Or.inr (Or.inl rfl), by decide⟩,
    C2_amended none .GE 2 7200 "_" [⟨"", 0⟩, ⟨"", 1000⟩] (Or.inr (Or.inl rfl)) (by decide)⟩

theorem takeWhile_append_all (q : Char → Bool) (x : Str) :
    ∀ (p : Str), (∀ c ∈ p, q c = true) →
      (p ++ x).takeWhile q = p ++ x.takeWhile q := by
  intro p
  induction p with
  | nil => intro _; rfl
  | cons c cs ih =>
    intro h
    have hc : q c = true := h c (by simp)
    simp only [List.cons_append, List.takeWhile_cons, hc, if_true]
    rw [ih (fun a ha => h a (by simp [ha]))]

theorem isPrefixOf_cons_neq (a b : Char) (l t : Str) (h : ¬ a = b) :
    (a :: l).isPrefixOf (b :: t) = false := by
  show ((a == b) && l.isPrefixOf t) = false
  simp [h]

theorem isPrefixOf_false_of_missing (pat s : Str) (a : Char) (ha : a ∈ pat)
    (hs : a ∉ s) : pat.isPrefixOf s = false := by
  cases hpre : pat.isPrefixOf s with
  | false => rfl
  | true =>
    exact absurd ((List.isPrefixOf_iff_prefix.mp hpre).subset ha) hs

theorem replaceAllFuel_nilstr (pat rep : Str) (f : Nat) :
    replaceAllFuel pat rep f [] = [] := by
  cases f <;> rfl

theorem replaceAllFuel_no_occ (pat rep : Str) :
    ∀ (fuel : Nat) (s : Str), (∀ k, pat.isPrefixOf (List.drop k s) = false) →
      replaceAllFuel pat rep fuel s = s := by
  intro fuel
  induction fuel with
  | zero => intro s _; cases s <;> rfl
  | succ n ih =>
    intro s h
    cases s with
    | nil => rfl
    | cons c rest =>
      rw [replaceAllFuel, if_neg]
      · rw [ih rest (fun k => by have hk := h (k + 1); simpa using hk)]
      · rintro ⟨-, hpre⟩
        have h0 := h 0
        simp only [List.drop_zero] at h0
        rw [h0] at hpre
        exact absurd hpre (by simp)

theorem replaceAll_no_occ (pat rep s : Str)
    (h : ∀ k, pat.isPrefixOf (List.drop k s) = false) :
    replaceAll pat rep s = s :=
  replaceAllFuel_no_occ pat rep s.length s h

theorem replaceAll_id_of_missing (pat rep s : Str) (a : Char) (ha : a ∈ pat)
    (hs : a ∉ s) : replaceAll pat rep s = s :=
  replaceAll_no_occ pat rep s
    (fun k => isPrefixOf_false_of_missing pat _ a ha
      (fun hmem => hs (List.drop_subset k s hmem)))

theorem replaceAll_head (pat rep s : Str) (hne : pat ≠ []) (a : Char)
    (hpa : a ∈ pat) (hs : a ∉ s) : replaceAll pat rep (pat ++ s) = rep ++ s := by
  cases pat with
  | nil => exact absurd rfl hne
  | cons c cs =>
    unfold replaceAll
    rw [show ((c :: cs) ++ s) = c :: (cs ++ s) from rfl, List.length_cons,
      replaceAllFuel,
      if_pos ⟨hne, List.isPrefixOf_iff_prefix.mpr (by exact ⟨s, rfl⟩)⟩]
    rw [show (c :: (cs ++ s)).drop (c :: cs).length = s from by
      rw [show (c :: (cs ++ s)) = (c :: cs) ++ s from rfl]; exact List.drop_left _ _]
    rw [replaceAllFuel_no_occ (c :: cs) rep _ s
      (fun k => isPrefixOf_false_of_missing _ _ a hpa
        (fun hmem => hs (List.drop_subset k s hmem)))]

theorem replaceAll_whole (pat rep : Str) (hne : pat ≠ []) :
    replaceAll pat rep pat = rep := by
  have h := replaceAll_head pat rep [] hne
  cases pat with
  | nil => exact absurd rfl hne
  | cons c cs =>
    have h2 := replaceAll_head (c :: cs) rep [] hne c (by simp) (by simp)
    simpa using h2

theorem findMatchesFuel_nil (f : Nat) : findMatchesFuel f [] = [] := by
  cases f <;> rfl

theorem findMatches_of_whole (s : Str) (hs : s ≠ [])
    (h : ofSelectionMatchLen s = some s.length) : findMatches s = [s] := by
  cases s with
  | nil => exact absurd rfl hs
  | cons c rest =>
    unfold findMatches
    rw [List.length_cons, findMatchesFuel, h]
    dsimp only []
    rw [List.take_length, List.drop_length, findMatchesFuel_nil]

theorem ofSel_allof (p : Str) (hp : p ≠ [])
    (hstar : ∀ c ∈ p, (decide (c ≠ '*')) = true) :
    ofSelectionMatchLen ("all of ".toList ++ p ++ ['*']) =
      some ("all of ".toList ++ p ++ ['*']).length := by
  unfold ofSelectionMatchLen
  have h1 : (("all of ".toList).isPrefixOf ("all of ".toList ++ p ++ ['*'])) = true := by
    rw [List.append_assoc]
    exact List.isPrefixOf_iff_prefix.mpr (List.prefix_append _ _)
  simp only [h1, if_true]
  have hdrop7 : ("all of ".toList ++ p ++ ['*']).drop 7 = p ++ ['*'] := by
    rw [List.append_assoc, show (7 : Nat) = ("all of ".toList).length from rfl,
      List.drop_left]
  rw [hdrop7, takeWhile_append_all _ _ p hstar,
    show List.takeWhile (fun c => decide (c ≠ '*')) ['*'] = [] from rfl,
    List.append_nil, if_neg hp]
  have hdrop2 : ("all of ".toList ++ p ++ ['*']).drop (7 + p.length) = ['*'] := by
    rw [show 7 + p.length = ("all of ".toList ++ p).length from by simp; omega,
      List.drop_left]
  rw [hdrop2]
  dsimp only [List.head?]
  simp only [List.length_append, List.length_cons, List.length_nil, Option.some.injEq,
    show ("all of ".toList).length = 7 from rfl, show ("1 of ".toList).length = 5 from rfl]
  try omega

theorem ofSel_oneof (p : Str) (hp : p ≠ [])
    (hstar : ∀ c ∈ p, (decide (c ≠ '*')) = true) :
    ofSelectionMatchLen ("1 of ".toList ++ p ++ ['*']) =
      some ("1 of ".toList ++ p ++ ['*']).length := by
  unfold ofSelectionMatchLen
  have h0 : (("all of ".toList).isPrefixOf ("1 of ".toList ++ p ++ ['*'])) = false :=
    isPrefixOf_cons_neq _ _ _ _ (by decide)
  have h1 : (("1 of ".toList).isPrefixOf ("1 of ".toList ++ p ++ ['*'])) = true := by
    rw [List.append_assoc]
    exact List.isPrefixOf_iff_prefix.mpr (List.prefix_append _ _)
  simp only [h0, h1, Bool.false_eq_true, if_false, if_true]
  have hdrop5 : ("1 of ".toList ++ p ++ ['*']).drop 5 = p ++ ['*'] := by
    rw [List.append_assoc, show (5 : Nat) = ("1 of ".toList).length from rfl,
      List.drop_left]
  rw [hdrop5, takeWhile_append_all _ _ p hstar,
    show List.takeWhile (fun c => decide (c ≠ '*')) ['*'] = [] from rfl,
    List.append_nil, if_neg hp]
  have hdrop2 : ("1 of ".toList ++ p ++ ['*']).drop (5 + p.length) = ['*'] := by
    rw [show 5 + p.length = ("1 of ".toList ++ p).length from by simp; omega,
      List.drop_left]
  rw [hdrop2]
  dsimp only [List.head?]
  simp only [List.length_append, List.length_cons, List.length_nil, Option.some.injEq,
    show ("all of ".toList).length = 7 from rfl, show ("1 of ".toList).length = 5 from rfl]
  try omega

theorem allof_no_occ_oneof (p : Str) (hs : ' ' ∉ p) (k : Nat) :
    ("all of ".toList).isPrefixOf (List.drop k ("1 of ".toList ++ p)) = false := by
  rcases k with _ | _ | _ | _ | _ | n
  · exact isPrefixOf_cons_neq _ _ _ _ (by decide)
  · exact isPrefixOf_cons_neq _ _ _ _ (by decide)
  · exact isPrefixOf_cons_neq _ _ _ _ (by decide)
  · exact isPrefixOf_cons_neq _ _ _ _ (by decide)
  · exact isPrefixOf_cons_neq _ _ _ _ (by decide)
  · rw [show ("1 of ".toList ++ p) = '1' :: ' ' :: 'o' :: 'f' :: ' ' :: p from rfl]
    simp only [List.drop_succ_cons]
    exact isPrefixOf_false_of_missing _ _ ' ' (by decide)
      (fun hmem => hs (List.drop_subset n p hmem))

theorem filter_star (pre p : Str)
    (hpre : pre.filter (fun c => decide (c ≠ '*')) = pre)
    (hstar : ∀ c ∈ p, (decide (c ≠ '*')) = true) :
    (pre ++ p ++ ['*']).filter (fun c => decide (c ≠ '*')) = pre ++ p := by
  rw [List.filter_append, List.filter_append, hpre, List.filter_eq_self.mpr hstar,
    show List.filter (fun c => decide (c ≠ '*')) ['*'] = [] from rfl, List.append_nil]

theorem convert_condition_allof (p : Str) (keys : List Str) (hp : p ≠ [])
    (hw : ∀ c ∈ p, isWordChar c = true) :
    convert_condition ("all of ".toList ++ p ++ ['*']) keys =
      '(' :: (List.intercalate (" and ".toList)
        (keys.filter (fun x => p.isPrefixOf x)) ++ [')']) := by
  have hstar : ∀ c ∈ p, (decide (c ≠ '*')) = true := by
    intro c hc
    have hc' := hw c hc
    simp only [decide_eq_true_eq]
    intro he; rw [he] at hc'; exact absurd hc' (by decide)
  have hspace : ' ' ∉ p := by
    intro hmem
    exact absurd (hw ' ' hmem) (by decide)
  have hfm := findMatches_of_whole _ (by simp) (ofSel_allof p hp hstar)
  unfold convert_condition
  rw [hfm, List.foldl_cons, List.foldl_nil]
  dsimp only []
  have hsep : (("all".toList).isPrefixOf ("all of ".toList ++ p ++ ['*'])) = true := rfl
  have hfil : ("all of ".toList ++ p ++ ['*']).filter (fun c => decide (c ≠ '*')) =
      "all of ".toList ++ p := filter_star _ _ rfl hstar
  have hstrip1 : replaceAll ("all of ".toList) [] ("all of ".toList ++ p) = p := by
    have h := replaceAll_head ("all of ".toList) [] p (by decide) ' ' (by decide) hspace
    simpa using h
  have hstrip2 : replaceAll ("1 of ".toList) [] p = p :=
    replaceAll_id_of_missing _ _ _ ' ' (by decide) hspace
  simp only [hsep, if_true, hfil, hstrip1, hstrip2]
  exact replaceAll_whole _ _ (by simp)

theorem convert_condition_oneof (p : Str) (keys : List Str) (hp : p ≠ [])
    (hw : ∀ c ∈ p, isWordChar c = true) :
    convert_condition ("1 of ".toList ++ p ++ ['*']) keys =
      '(' :: (List.intercalate (" or ".toList)
        (keys.filter (fun x => p.isPrefixOf x)) ++ [')']) := by
  have hstar : ∀ c ∈ p, (decide (c ≠ '*')) = true := by
    intro c hc
    have hc' := hw c hc
    simp only [decide_eq_true_eq]
    intro he; rw [he] at hc'; exact absurd hc' (by decide)
  have hspace : ' ' ∉ p := by
    intro hmem
    exact absurd (hw ' ' hmem) (by decide)
  have hfm := findMatches_of_whole _ (by simp) (ofSel_oneof p hp hstar)
  unfold convert_condition
  rw [hfm, List.foldl_cons, List.foldl_nil]
  dsimp only []
  have hsep : (("all".toList).isPrefixOf ("1 of ".toList ++ p ++ ['*'])) = false :=
    isPrefixOf_cons_neq _ _ _ _ (by decide)
  have hfil : ("1 of ".toList ++ p ++ ['*']).filter (fun c => decide (c ≠ '*')) =
      "1 of ".toList ++ p := filter_star _ _ rfl hstar
  have hstrip1 : replaceAll ("all of ".toList) [] ("1 of ".toList ++ p) =
      "1 of ".toList ++ p :=
    replaceAll_no_occ _ _ _ (allof_no_occ_oneof p hspace)
  have hstrip2 : replaceAll ("1 of ".toList) [] ("1 of ".toList ++ p) = p := by
    have h := replaceAll_head ("1 of ".toList) [] p (by decide) ' ' (by decide) hspace
    simpa using h
  simp only [hsep, Bool.false_eq_true, if_false, hfil, hstrip1, hstrip2]
  exact replaceAll_whole _ _ (by simp)

/-- C5 (amended): for a nonempty prefix `p` of word characters, pre-expansion
replaces the whole-string occurrence `all of p*` by the parenthesized
`" and "`-joined list of exactly the selection names starting with `p`, and
`1 of p*` by their `" or "`-joined list; when no selection name starts with
`p` the substitution yields `()` and `compile_condition` rejects the rule. -/
theorem C5_amended (p : Str) (keys : List Str) (hp : p ≠ [])
    (hw : ∀ c ∈ p, isWordChar c = true) :
    (convert_condition ("all of ".toList ++ p ++ ['*']) keys =
      '(' :: (List.intercalate (" and ".toList)
        (keys.filter (fun x => p.isPrefixOf x)) ++ [')'])) ∧
    (convert_condition ("1 of ".toList ++ p ++ ['*']) keys =
      '(' :: (List.intercalate (" or ".toList)
        (keys.filter (fun x => p.isPrefixOf x)) ++ [')'])) ∧
    (keys.filter (fun x => p.isPrefixOf x) = [] →
      exceptIsOk (compile_condition ("all of ".toList ++ p ++ ['*']) keys) = false ∧
      exceptIsOk (compile_condition ("1 of ".toList ++ p ++ ['*']) keys) = false) := by
  refine ⟨convert_condition_allof p keys hp hw, convert_condition_oneof p keys hp hw, ?_⟩
  intro hfil
  have h1 : convert_condition ("all of ".toList ++ p ++ ['*']) keys = ['(', ')'] := by
    rw [convert_condition_allof p keys hp hw, hfil]; rfl
  have h2 : convert_condition ("1 of ".toList ++ p ++ ['*']) keys = ['(', ')'] := by
    rw [convert_condition_oneof p keys hp hw, hfil]; rfl
  constructor
  · unfold compile_condition
    dsimp only []
    rw [h1]
    rfl
  · unfold compile_condition
    dsimp only []
    rw [h2]
    rfl

/-- C5 (amended), instantiated: prefix `sel` over the single selection name
`other`, which it does not prefix; both expansions give `()` and both
compilations fail. -/
theorem C5_amended_witness :
    (("sel".toList ≠ []) ∧ (∀ c ∈ "sel".toList, isWordChar c = true)) ∧
    ((convert_condition ("all of ".toList ++ "sel".toList ++ ['*']) ["other".toList] =
      '(' :: (List.intercalate (" and ".toList)
        (["other".toList].filter (fun x => ("sel".toList).isPrefixOf x)) ++ [')'])) ∧
    (convert_condition ("1 of ".toList ++ "sel".toList ++ ['*']) ["other".toList] =
      '(' :: (List.intercalate (" or ".toList)
        (["other".toList].filter (fun x => ("sel".toList).isPrefixOf x)) ++ [')'])) ∧
    (["other".toList].filter (fun x => ("sel".toList).isPrefixOf x) = [] →
      exceptIsOk (compile_condition ("all of ".toList ++ "sel".toList ++ ['*'])
        ["other".toList]) = false ∧
      exceptIsOk (compile_condition ("1 of ".toList ++ "sel".toList ++ ['*'])
        ["other".toList]) = false)) :=
  ⟨⟨by decide, by decide⟩,
    C5_amended ("sel".toList) ["other".toList] (by decide) (by decide)⟩

end Hayabusa
